import Mathlib

/-!
# Backend factories of the inference server

A shallow embedding of `src/backends/onnx/onnx_backend_factory.cc` and
`src/backends/tensorflow/graphdef_backend_factory.cc`.

* Collaborators of `CreateBackend` that live in other translation units (the filesystem
  helpers and the backend classes) are oracles collected in `Env`; every call made to one
  of them is recorded, with the status it returned, in a trace. The status returned by
  `OnnxLoader::Init` is an argument of `Create`, whose loader calls are recorded as well.
* An output parameter of type `std::unique_ptr<T>*` is an `Option T` that is passed in
  (the value the caller's pointer holds on entry) and returned (the value it holds on
  exit).
* `std::set<std::string>` is the list of its elements in iteration order, and
  `std::unordered_map<std::string, V>` is the list of its entries.
-/

namespace nvidia.inferenceserver

/-! ## Types declared outside the two source files -/

/-- Modelled from the spec: the error kinds of section 7; the `Status` class itself is declared
in `src/core/status.h`, which is not among the sources. -/
inductive ErrorKind where
  | LocalizationError
  | IOError
  | RuntimeInitError
  | CapabilityError
  | BudgetError
  | ConfigError
  deriving DecidableEq

/-- Modelled from the spec: a status is either success or a structured error (kind and
message); `src/core/status.h` is not among the sources. -/
inductive Status where
  | Success
  | Error (kind : ErrorKind) (msg : String)
  deriving DecidableEq

/-- Modelled from the spec: `Status::IsOk`, the test made by the `RETURN_IF_ERROR` wrapper. -/
def Status.IsOk : Status → Bool
  | .Success => true
  | .Error _ _ => false

/-- Modelled from the spec: `inference::ModelConfig`, the read-only model description of
section 6 (generated from `model_config.proto`, which is not among the sources). -/
structure ModelConfig where
  name : String
  platform : String
  instance_count : Nat
  deriving DecidableEq

/-- Modelled from the spec: the platform-wide `BackendConfig` of section 3 (declared in the
factory headers, which are not among the sources). -/
structure BackendConfig where
  memory_limit_mb : Nat
  deriving DecidableEq

/-- Modelled from the spec: `LocalizedDirectory`, the value object wrapping a local root path
(declared in `src/core/filesystem.h`, which is not among the sources). -/
structure LocalizedDirectory where
  Path : String
  deriving DecidableEq

/-! ## `std::unordered_map<std::string, V>` -/

/-- The entries of a `std::unordered_map<std::string, V>`. -/
abbrev UnorderedMap (V : Type) := List (String × V)

namespace UnorderedMap

variable {V : Type}

/-- The keys of the map. -/
def keys (m : UnorderedMap V) : List String := m.map Prod.fst

/-- Member function `size`. -/
def size (m : UnorderedMap V) : Nat := m.length

/-- Member function `find`, returning the mapped value. -/
def find (m : UnorderedMap V) (k : String) : Option V := List.lookup k m

/-- Member function `emplace`: the entry is inserted only when no entry has the key. -/
def emplace (m : UnorderedMap V) (k : String) (v : V) : UnorderedMap V :=
  if k ∈ m.keys then m else m ++ [(k, v)]

end UnorderedMap

/-- The type of `models` in `OnnxBackendFactory::CreateBackend`: the flag is `true` for file
contents and `false` for a path. -/
abbrev OnnxModels := UnorderedMap (Bool × String)

/-- The type of `models` in `GraphDefBackendFactory::CreateBackend`. -/
abbrev GraphDefModels := UnorderedMap String

/-! ## Backend objects -/

/-- Modelled from the spec: an `OnnxBackend` instance (class declared in `onnx_backend.h`, not
among the sources), as the record of its constructor argument and of the arguments of the
`Init` and `CreateExecutionContexts` calls that succeeded on it. -/
structure OnnxBackend where
  min_compute_capability : Float
  init_args : Option (String × ModelConfig × String)
  contexts : Option OnnxModels

/-- Modelled from the spec: a `GraphDefBackend` instance (class declared in
`graphdef_backend.h`, not among the sources), recorded like `OnnxBackend`; its `Init` also
receives the factory's backend config. -/
structure GraphDefBackend where
  min_compute_capability : Float
  init_args : Option (String × ModelConfig × BackendConfig × String)
  contexts : Option GraphDefModels

/-- What a `std::unique_ptr<InferenceBackend>` can own. -/
inductive InferenceBackend where
  | onnx (b : OnnxBackend)
  | graphdef (b : GraphDefBackend)

/-- The factory object: its only data member is `backend_config_`. -/
structure OnnxBackendFactory where
  backend_config_ : BackendConfig
  deriving DecidableEq

/-- The factory object: its only data member is `backend_config_`. -/
structure GraphDefBackendFactory where
  backend_config_ : BackendConfig
  deriving DecidableEq

/-! ## Collaborators and traces -/

/-- A call made by `CreateBackend` to a collaborator, with its arguments. -/
inductive Call where
  | LocalizeDirectory (path : String)
  | GetDirectoryFiles (path : String) (skip_hidden_files : Bool)
  | GetDirectorySubdirs (path : String)
  | ReadTextFile (path : String)
  | OnnxBackend_Init (self : OnnxBackend) (path : String) (config : ModelConfig)
      (platform : String)
  | OnnxBackend_CreateExecutionContexts (self : OnnxBackend) (models : OnnxModels)
  | GraphDefBackend_Init (self : GraphDefBackend) (path : String) (config : ModelConfig)
      (backend_config : BackendConfig) (platform : String)
  | GraphDefBackend_CreateExecutionContexts (self : GraphDefBackend) (models : GraphDefModels)

/-- A call together with the status it returned. -/
structure Event where
  call : Call
  status : Status

/-- The collaborators of `CreateBackend`. A function that returns a `Status` and fills an
output argument is a function to the pair of the status and the value left in the output
argument. `JoinPath` and the two platform constants are declared in `src/core`, which is
not among the sources, and are taken as they come. -/
structure Env where
  LocalizeDirectory : String → Status × LocalizedDirectory
  GetDirectoryFiles : String → Bool → Status × List String
  GetDirectorySubdirs : String → Status × List String
  ReadTextFile : String → Status × String
  JoinPath : List String → String
  kOnnxRuntimeOnnxPlatform : String
  kTensorFlowGraphDefPlatform : String
  OnnxBackend_Init : OnnxBackend → String → ModelConfig → String → Status
  OnnxBackend_CreateExecutionContexts : OnnxBackend → OnnxModels → Status
  GraphDefBackend_Init :
    GraphDefBackend → String → ModelConfig → BackendConfig → String → Status
  GraphDefBackend_CreateExecutionContexts : GraphDefBackend → GraphDefModels → Status

/-- What `CreateBackend` leaves behind: the returned status, the value of `*backend` on exit
and the calls made, in order. -/
structure CreateBackendResult where
  status : Status
  backend : Option InferenceBackend
  trace : List Event

/-! ## `OnnxBackendFactory::CreateBackend` -/

/-- The loop `for (const auto& dirname : onnx_subdirs)`. -/
def OnnxBackendFactory.insertSubdirs (env : Env) (root : String) :
    List String → OnnxModels → OnnxModels
  | [], models => models
  | dirname :: rest, models =>
    let onnx_path := env.JoinPath [root, dirname]
    insertSubdirs env root rest (models.emplace dirname (false, onnx_path))

/-- The loop `for (const auto& filename : onnx_files)`; it is left at the first read that
fails, with the status of that read. The third component lists the reads made. -/
def OnnxBackendFactory.readFiles (env : Env) (root : String) :
    List String → OnnxModels → Status × OnnxModels × List Event
  | [], models => (Status.Success, models, [])
  | filename :: rest, models =>
    let onnx_path := env.JoinPath [root, filename]
    let r := env.ReadTextFile onnx_path
    let ev : Event := ⟨Call.ReadTextFile onnx_path, r.1⟩
    if !r.1.IsOk then (r.1, models, [ev])
    else
      let r' := readFiles env root rest (models.emplace filename (true, r.2))
      (r'.1, r'.2.1, ev :: r'.2.2)

/-- The member function `OnnxBackendFactory::CreateBackend`. -/
def OnnxBackendFactory.CreateBackend (env : Env) (_self : OnnxBackendFactory)
    (nonlocal_path : String) (model_config : ModelConfig) (min_compute_capability : Float)
    (backend : Option InferenceBackend) : CreateBackendResult :=
  let r1 := env.LocalizeDirectory nonlocal_path
  let local_dir := r1.2
  let t1 : List Event := [⟨Call.LocalizeDirectory nonlocal_path, r1.1⟩]
  if !r1.1.IsOk then ⟨r1.1, backend, t1⟩ else
  let r2 := env.GetDirectoryFiles local_dir.Path true
  let onnx_files := r2.2
  let t2 := t1 ++ [⟨Call.GetDirectoryFiles local_dir.Path true, r2.1⟩]
  if !r2.1.IsOk then ⟨r2.1, backend, t2⟩ else
  let r3 := env.GetDirectorySubdirs local_dir.Path
  let onnx_subdirs := r3.2
  let t3 := t2 ++ [⟨Call.GetDirectorySubdirs local_dir.Path, r3.1⟩]
  if !r3.1.IsOk then ⟨r3.1, backend, t3⟩ else
  let models := insertSubdirs env local_dir.Path onnx_subdirs []
  let r4 := readFiles env local_dir.Path onnx_files models
  let models := r4.2.1
  let t4 := t3 ++ r4.2.2
  if !r4.1.IsOk then ⟨r4.1, backend, t4⟩ else
  let local_backend : OnnxBackend := ⟨min_compute_capability, none, none⟩
  let s5 := env.OnnxBackend_Init local_backend nonlocal_path model_config
    env.kOnnxRuntimeOnnxPlatform
  let t5 := t4 ++ [⟨Call.OnnxBackend_Init local_backend nonlocal_path model_config
    env.kOnnxRuntimeOnnxPlatform, s5⟩]
  if !s5.IsOk then ⟨s5, backend, t5⟩ else
  let local_backend : OnnxBackend :=
    { local_backend with
      init_args := some (nonlocal_path, model_config, env.kOnnxRuntimeOnnxPlatform) }
  let s6 := env.OnnxBackend_CreateExecutionContexts local_backend models
  let t6 := t5 ++ [⟨Call.OnnxBackend_CreateExecutionContexts local_backend models, s6⟩]
  if !s6.IsOk then ⟨s6, backend, t6⟩ else
  let local_backend : OnnxBackend := { local_backend with contexts := some models }
  ⟨Status.Success, some (InferenceBackend.onnx local_backend), t6⟩

/-! ## `GraphDefBackendFactory::CreateBackend` -/

/-- The loop `for (const auto& filename : graphdef_files)`. -/
def GraphDefBackendFactory.insertFiles (env : Env) (root : String) :
    List String → GraphDefModels → GraphDefModels
  | [], models => models
  | filename :: rest, models =>
    let graphdef_path := env.JoinPath [root, filename]
    insertFiles env root rest (models.emplace filename graphdef_path)

/-- The member function `GraphDefBackendFactory::CreateBackend`. -/
def GraphDefBackendFactory.CreateBackend (env : Env) (self : GraphDefBackendFactory)
    (nonlocal_path : String) (model_config : ModelConfig) (min_compute_capability : Float)
    (backend : Option InferenceBackend) : CreateBackendResult :=
  let r1 := env.LocalizeDirectory nonlocal_path
  let local_dir := r1.2
  let t1 : List Event := [⟨Call.LocalizeDirectory nonlocal_path, r1.1⟩]
  if !r1.1.IsOk then ⟨r1.1, backend, t1⟩ else
  let r2 := env.GetDirectoryFiles local_dir.Path true
  let graphdef_files := r2.2
  let t2 := t1 ++ [⟨Call.GetDirectoryFiles local_dir.Path true, r2.1⟩]
  if !r2.1.IsOk then ⟨r2.1, backend, t2⟩ else
  let models := insertFiles env local_dir.Path graphdef_files []
  let local_backend : GraphDefBackend := ⟨min_compute_capability, none, none⟩
  let s3 := env.GraphDefBackend_Init local_backend nonlocal_path model_config
    self.backend_config_ env.kTensorFlowGraphDefPlatform
  let t3 := t2 ++ [⟨Call.GraphDefBackend_Init local_backend nonlocal_path model_config
    self.backend_config_ env.kTensorFlowGraphDefPlatform, s3⟩]
  if !s3.IsOk then ⟨s3, backend, t3⟩ else
  let local_backend : GraphDefBackend :=
    { local_backend with
      init_args := some (nonlocal_path, model_config, self.backend_config_,
        env.kTensorFlowGraphDefPlatform) }
  let s4 := env.GraphDefBackend_CreateExecutionContexts local_backend models
  let t4 := t3 ++ [⟨Call.GraphDefBackend_CreateExecutionContexts local_backend models, s4⟩]
  if !s4.IsOk then ⟨s4, backend, t4⟩ else
  let local_backend : GraphDefBackend := { local_backend with contexts := some models }
  ⟨Status.Success, some (InferenceBackend.graphdef local_backend), t4⟩

/-! ## `OnnxBackendFactory::Create` and the destructor -/

/-- A call to one of the two static functions of `OnnxLoader`; for `Init`, with the status it
returned. -/
inductive LoaderCall where
  | Init (returned : Status)
  | Stop
  deriving DecidableEq

/-- The destructor `OnnxBackendFactory::~OnnxBackendFactory`: it calls `OnnxLoader::Stop` and
drops the status. -/
def OnnxBackendFactory.destroy (_self : OnnxBackendFactory) : List LoaderCall :=
  [LoaderCall.Stop]

/-- What deleting the object owned by a `std::unique_ptr<OnnxBackendFactory>` does: nothing
for an empty pointer, the destructor otherwise. -/
def OnnxBackendFactory.release : Option OnnxBackendFactory → List LoaderCall
  | none => []
  | some f => f.destroy

/-- What `Create` leaves behind: the returned status, the value of `*factory` on exit and the
loader calls made, in order. -/
structure CreateResult where
  status : Status
  factory : Option OnnxBackendFactory
  loader_calls : List LoaderCall
  deriving DecidableEq

/-- The static member function `OnnxBackendFactory::Create`. `loader_init` is the status
that the call `OnnxLoader::Init()` returns. On the error return the factory owned by `local`
is destroyed; on the success path the move assignment destroys what `*factory` owned
before. -/
def OnnxBackendFactory.Create (loader_init : Status) (backend_config : BackendConfig)
    (factory : Option OnnxBackendFactory) : CreateResult :=
  let local_ : OnnxBackendFactory := ⟨backend_config⟩
  let calls := [LoaderCall.Init loader_init]
  if !loader_init.IsOk then ⟨loader_init, factory, calls ++ local_.destroy⟩ else
  ⟨Status.Success, some local_, calls ++ OnnxBackendFactory.release factory⟩

/-! ## Auxiliary definitions for the statements -/

/-- A sequence of `emplace` calls, one per entry of the list, in order. -/
def UnorderedMap.emplaceAll {V : Type} (m : UnorderedMap V) :
    List (String × V) → UnorderedMap V
  | [] => m
  | e :: es => emplaceAll (m.emplace e.1 e.2) es

/-- The path `local_dir->Path()` that `CreateBackend` works on. -/
def Env.root (env : Env) (nonlocal_path : String) : String :=
  (env.LocalizeDirectory nonlocal_path).2.Path

/-- The names that the file listing of `CreateBackend` returns (hidden files skipped). -/
def Env.files (env : Env) (nonlocal_path : String) : List String :=
  (env.GetDirectoryFiles (env.root nonlocal_path) true).2

/-- The names that the subdirectory listing of `CreateBackend` returns. -/
def Env.subdirs (env : Env) (nonlocal_path : String) : List String :=
  (env.GetDirectorySubdirs (env.root nonlocal_path)).2

/-- The local path of the child `name` of the localized root. -/
def Env.childPath (env : Env) (nonlocal_path name : String) : String :=
  env.JoinPath [env.root nonlocal_path, name]

/-- The read that `CreateBackend` makes for the file `name`: the status and the contents. -/
def Env.read (env : Env) (nonlocal_path name : String) : Status × String :=
  env.ReadTextFile (env.childPath nonlocal_path name)

/-- The event that the read of the file `name` leaves in the trace. -/
def Env.readEvent (env : Env) (nonlocal_path name : String) : Event :=
  ⟨Call.ReadTextFile (env.childPath nonlocal_path name), (env.read nonlocal_path name).1⟩

/-- The map argument of a call to `OnnxBackend::CreateExecutionContexts`. -/
def Call.onnxModels : Call → Option OnnxModels
  | .OnnxBackend_CreateExecutionContexts _ models => some models
  | _ => none

/-- The map argument of a call to `GraphDefBackend::CreateExecutionContexts`. -/
def Call.graphdefModels : Call → Option GraphDefModels
  | .GraphDefBackend_CreateExecutionContexts _ models => some models
  | _ => none

/-- The maps handed to `OnnxBackend::CreateExecutionContexts` in a trace, in order. -/
def onnxModelsHanded (trace : List Event) : List OnnxModels :=
  trace.filterMap (fun e => e.call.onnxModels)

/-- The maps handed to `GraphDefBackend::CreateExecutionContexts` in a trace, in order. -/
def graphdefModelsHanded (trace : List Event) : List GraphDefModels :=
  trace.filterMap (fun e => e.call.graphdefModels)

/-- Calls to the filesystem helpers, as opposed to calls on the backend object. -/
def Call.isFilesystem : Call → Bool
  | .LocalizeDirectory _ => true
  | .GetDirectoryFiles _ _ => true
  | .GetDirectorySubdirs _ => true
  | .ReadTextFile _ => true
  | _ => false

/-- Calls to `ReadTextFile`. -/
def Call.isRead : Call → Bool
  | .ReadTextFile _ => true
  | _ => false

/-- Calls to `GetDirectorySubdirs`. -/
def Call.isSubdirs : Call → Bool
  | .GetDirectorySubdirs _ => true
  | _ => false

/-- Entries of a model map that hold file contents. -/
def OnnxModels.inlineEntries (m : OnnxModels) : List (String × Bool × String) :=
  m.filter (fun e => e.2.1)

/-- Entries of a model map that hold a path. -/
def OnnxModels.externalEntries (m : OnnxModels) : List (String × Bool × String) :=
  m.filter (fun e => !e.2.1)

/-- Entries that the subdirectory loop tries to insert. -/
def subdirEntries (env : Env) (root : String) (ds : List String) : OnnxModels :=
  ds.map (fun d => (d, (false, env.JoinPath [root, d])))

/-- Entries that the file loop tries to insert. -/
def fileEntries (env : Env) (root : String) (fs : List String) : OnnxModels :=
  fs.map (fun f => (f, (true, (env.ReadTextFile (env.JoinPath [root, f])).2)))

/-- The events of the reads of the given files. -/
def readEvents (env : Env) (root : String) (fs : List String) : List Event :=
  fs.map (fun f => ⟨Call.ReadTextFile (env.JoinPath [root, f]),
    (env.ReadTextFile (env.JoinPath [root, f])).1⟩)

/-- The shape of a fail-fast run: on success every recorded call succeeded, on failure the
last recorded call is the only one that failed and its status is the one returned. -/
def FailFast (st : Status) (tr : List Event) : Prop :=
  (st.IsOk = true → st = Status.Success ∧ ∀ e ∈ tr, e.status.IsOk = true) ∧
  (st.IsOk = false →
    ∃ pre e, tr = pre ++ [e] ∧ e.status = st ∧ ∀ x ∈ pre, x.status.IsOk = true)

/-- The value of `models` after the two loops of `OnnxBackendFactory::CreateBackend`. -/
def OnnxBackendFactory.collected (env : Env) (nonlocal_path : String) : OnnxModels :=
  (OnnxBackendFactory.readFiles env (env.root nonlocal_path) (env.files nonlocal_path)
    (OnnxBackendFactory.insertSubdirs env (env.root nonlocal_path)
      (env.subdirs nonlocal_path) [])).2.1

/-- The value of `models` after the loop of `GraphDefBackendFactory::CreateBackend`. -/
def GraphDefBackendFactory.collected (env : Env) (nonlocal_path : String) : GraphDefModels :=
  GraphDefBackendFactory.insertFiles env (env.root nonlocal_path) (env.files nonlocal_path) []

/-- The event of the localization call. -/
def Env.localizeEvent (env : Env) (nonlocal_path : String) : Event :=
  ⟨Call.LocalizeDirectory nonlocal_path, (env.LocalizeDirectory nonlocal_path).1⟩

/-- The event of the file listing call. -/
def Env.filesEvent (env : Env) (nonlocal_path : String) : Event :=
  ⟨Call.GetDirectoryFiles (env.root nonlocal_path) true,
    (env.GetDirectoryFiles (env.root nonlocal_path) true).1⟩

/-- The event of the subdirectory listing call. -/
def Env.subdirsEvent (env : Env) (nonlocal_path : String) : Event :=
  ⟨Call.GetDirectorySubdirs (env.root nonlocal_path),
    (env.GetDirectorySubdirs (env.root nonlocal_path)).1⟩

/-- The event of the call `local_backend->Init(...)` of the ONNX factory. -/
def OnnxBackendFactory.initEvent (env : Env) (nonlocal_path : String) (model_config : ModelConfig)
    (min_compute_capability : Float) : Event :=
  ⟨Call.OnnxBackend_Init ⟨min_compute_capability, none, none⟩ nonlocal_path model_config
      env.kOnnxRuntimeOnnxPlatform,
    env.OnnxBackend_Init ⟨min_compute_capability, none, none⟩ nonlocal_path model_config
      env.kOnnxRuntimeOnnxPlatform⟩

/-- The event of the call `local_backend->CreateExecutionContexts(models)` of the ONNX
factory. -/
def OnnxBackendFactory.contextsEvent (env : Env) (nonlocal_path : String)
    (model_config : ModelConfig) (min_compute_capability : Float) : Event :=
  ⟨Call.OnnxBackend_CreateExecutionContexts
      ⟨min_compute_capability,
        some (nonlocal_path, model_config, env.kOnnxRuntimeOnnxPlatform), none⟩
      (OnnxBackendFactory.collected env nonlocal_path),
    env.OnnxBackend_CreateExecutionContexts
      ⟨min_compute_capability,
        some (nonlocal_path, model_config, env.kOnnxRuntimeOnnxPlatform), none⟩
      (OnnxBackendFactory.collected env nonlocal_path)⟩

/-- The event of the call `local_backend->Init(...)` of the GraphDef factory. -/
def GraphDefBackendFactory.initEvent (env : Env) (self : GraphDefBackendFactory)
    (nonlocal_path : String) (model_config : ModelConfig) (min_compute_capability : Float) :
    Event :=
  ⟨Call.GraphDefBackend_Init ⟨min_compute_capability, none, none⟩ nonlocal_path model_config
      self.backend_config_ env.kTensorFlowGraphDefPlatform,
    env.GraphDefBackend_Init ⟨min_compute_capability, none, none⟩ nonlocal_path model_config
      self.backend_config_ env.kTensorFlowGraphDefPlatform⟩

/-- The event of the call `local_backend->CreateExecutionContexts(models)` of the GraphDef
factory. -/
def GraphDefBackendFactory.contextsEvent (env : Env) (self : GraphDefBackendFactory)
    (nonlocal_path : String) (model_config : ModelConfig) (min_compute_capability : Float) :
    Event :=
  ⟨Call.GraphDefBackend_CreateExecutionContexts
      ⟨min_compute_capability,
        some (nonlocal_path, model_config, self.backend_config_,
          env.kTensorFlowGraphDefPlatform), none⟩
      (GraphDefBackendFactory.collected env nonlocal_path),
    env.GraphDefBackend_CreateExecutionContexts
      ⟨min_compute_capability,
        some (nonlocal_path, model_config, self.backend_config_,
          env.kTensorFlowGraphDefPlatform), none⟩
      (GraphDefBackendFactory.collected env nonlocal_path)⟩

/-- The three facts about a run of `CreateBackend` from which the fail-fast statements follow. -/
def CreateBackendResult.Sound (r : CreateBackendResult) (backend : Option InferenceBackend)
    (fresh : InferenceBackend) : Prop :=
  FailFast r.status r.trace ∧ (r.status.IsOk = false → r.backend = backend) ∧
    (r.status.IsOk = true → r.backend = some fresh)

/-! ## A model of the directory behind the listings -/

/-- Modelled from the spec: a direct child of a model version directory, either a file with
its contents or a subdirectory. -/
inductive DirEntry where
  | file (name : String) (contents : String)
  | subdir (name : String)
  deriving DecidableEq

/-- The name of a directory entry. -/
def DirEntry.name : DirEntry → String
  | .file name _ => name
  | .subdir name => name

/-- The name of a directory entry that is a file. -/
def DirEntry.fileName : DirEntry → Option String
  | .file name _ => some name
  | .subdir _ => none

/-- The name of a directory entry that is a subdirectory. -/
def DirEntry.subdirName : DirEntry → Option String
  | .file _ _ => none
  | .subdir name => some name

/-- Modelled from the spec: the direct children of a local directory. -/
structure Directory where
  entries : List DirEntry
  deriving DecidableEq

/-- The names of all direct children. -/
def Directory.names (d : Directory) : List String := d.entries.map DirEntry.name

/-- The names of the direct child files. -/
def Directory.fileNames (d : Directory) : List String := d.entries.filterMap DirEntry.fileName

/-- The names of the direct child subdirectories. -/
def Directory.subdirNames (d : Directory) : List String :=
  d.entries.filterMap DirEntry.subdirName

/-- The names of the direct child files that are not hidden. -/
def Directory.visibleFiles (isHidden : String → Bool) (d : Directory) : List String :=
  d.fileNames.filter (fun n => !isHidden n)

/-- The names of the direct child files that are hidden. -/
def Directory.hiddenFiles (isHidden : String → Bool) (d : Directory) : List String :=
  d.fileNames.filter isHidden

/-- The contents of the first file of the directory whose local path is `path`. -/
def Directory.contentsAt (root : String) (path : String) : List DirEntry → Option String
  | [] => none
  | .file name contents :: rest =>
    if root ++ "/" ++ name = path then some contents else contentsAt root path rest
  | .subdir _ :: rest => contentsAt root path rest

/-- Modelled from the spec: the hidden-file convention of section 4.2, a leading dot. -/
def leadingDot (name : String) : Bool := name.toList.head? = some '.'

/-- Modelled from the spec: collaborators that honour the contracts of section 6 over a
directory staged at `/local`, with backend calls that succeed. It serves as a concrete
environment. -/
def Directory.env (d : Directory) : Env where
  LocalizeDirectory := fun _ => (Status.Success, ⟨"/local"⟩)
  GetDirectoryFiles := fun _ skip_hidden_files =>
    (Status.Success, if skip_hidden_files then d.visibleFiles leadingDot else d.fileNames)
  GetDirectorySubdirs := fun _ => (Status.Success, d.subdirNames)
  ReadTextFile := fun path =>
    match Directory.contentsAt "/local" path d.entries with
    | some contents => (Status.Success, contents)
    | none => (Status.Error ErrorKind.IOError "cannot read", "")
  JoinPath := fun segments => "/".intercalate segments
  kOnnxRuntimeOnnxPlatform := "onnxruntime_onnx"
  kTensorFlowGraphDefPlatform := "tensorflow_graphdef"
  OnnxBackend_Init := fun _ _ _ _ => Status.Success
  OnnxBackend_CreateExecutionContexts := fun _ _ => Status.Success
  GraphDefBackend_Init := fun _ _ _ _ _ => Status.Success
  GraphDefBackend_CreateExecutionContexts := fun _ _ => Status.Success

/-- Scenario A of section 8: one file `model.onnx` of ten bytes. -/
def scenarioA : Directory := ⟨[.file "model.onnx" "ABCDEFGHIJ"]⟩

/-- Scenario B of section 8: a subdirectory `weights` and a file `graph.pb`. -/
def scenarioB : Directory := ⟨[.subdir "weights", .file "graph.pb" "GRAPHDEF"]⟩

/-- Three visible files, two hidden files, no subdirectory. -/
def threeVisibleTwoHidden : Directory :=
  ⟨[.file "a.onnx" "A", .file ".lock" "L", .file "b.onnx" "B", .file ".cache" "C",
    .file "c.onnx" "C"]⟩

/-- Listings that overlap: the name `x` is returned as a file and as a subdirectory. -/
def overlapping : Directory := ⟨[.subdir "x", .file "x" "DATA", .file "y" "MORE"]⟩

/-- The environment of `overlapping` with reads that fail. -/
def overlappingUnreadable : Env :=
  { overlapping.env with
    ReadTextFile := fun _ => (Status.Error ErrorKind.IOError "read failure", "") }

/-- The environment of scenario B with a backend whose `Init` rejects the model. -/
def scenarioBInitFails : Env :=
  { scenarioB.env with
    OnnxBackend_Init := fun _ _ _ _ => Status.Error ErrorKind.ConfigError "unsupported"
    GraphDefBackend_Init := fun _ _ _ _ _ => Status.Error ErrorKind.ConfigError "unsupported" }

/-- A model configuration for the concrete runs. -/
def sampleConfig : ModelConfig := ⟨"model", "platform", 1⟩

/-! ## A model of the loader and of a process that owns factories -/

/-- Modelled from the spec: the process-wide state kept by `OnnxLoader` (`loader.cc` is not
among the sources), whether the runtime is set up: set by an `Init` that succeeds, cleared by
`Stop`. -/
def loaderStep (up : Bool) : LoaderCall → Bool
  | .Init returned => if returned.IsOk then true else up
  | .Stop => false

/-- An operation on the factories of the ONNX platform: a call to `Create` on an empty output
pointer, or the destruction of the factory at an index of the list of live factories. -/
inductive FactoryOp where
  | create (loader_init : Status) (backend_config : BackendConfig)
  | destroy (index : Nat)
  deriving DecidableEq

/-- The state of a process: the loader state and the factories that are alive. -/
structure Process where
  runtime_up : Bool
  factories : List OnnxBackendFactory
  deriving DecidableEq

/-- One operation: the loader calls made by `Create` or by the destructor are applied to the
loader state, and the list of live factories is updated. -/
def Process.step (p : Process) : FactoryOp → Process
  | .create loader_init backend_config =>
    let r := OnnxBackendFactory.Create loader_init backend_config none
    ⟨r.loader_calls.foldl loaderStep p.runtime_up, p.factories ++ r.factory.toList⟩
  | .destroy index =>
    match p.factories.get? index with
    | none => p
    | some f => ⟨f.destroy.foldl loaderStep p.runtime_up, p.factories.eraseIdx index⟩

/-- A sequence of operations. -/
def Process.run (p : Process) (ops : List FactoryOp) : Process := ops.foldl Process.step p

/-- The process before any factory is created. -/
def Process.start : Process := ⟨false, []⟩

/-- Whether every `Create` of the sequence is called while no factory is alive. -/
def Process.exclusive (p : Process) : List FactoryOp → Bool
  | [] => true
  | .create loader_init backend_config :: rest =>
    p.factories.isEmpty && (p.step (.create loader_init backend_config)).exclusive rest
  | .destroy index :: rest => (p.step (.destroy index)).exclusive rest

/-- The contract of a fail-fast run of `CreateBackend`, where `backend` is what the caller's
handle held on entry and `fresh` the backend object that a successful run builds: a step that
fails is the last step made, its status is the one returned and the handle is as on entry;
the run succeeds exactly when no step fails; the handle holds `fresh` after a success and is
as on entry, with the returned status being that of a step, after a failure. -/
def CreateBackendResult.IsFailFast (r : CreateBackendResult) (backend : Option InferenceBackend)
    (fresh : InferenceBackend) : Prop :=
  (∀ e ∈ r.trace, e.status.IsOk = false →
    r.status = e.status ∧ r.backend = backend ∧
      ∃ pre, r.trace = pre ++ [e] ∧ ∀ x ∈ pre, x.status.IsOk = true) ∧
  (r.status = Status.Success ↔ ∀ e ∈ r.trace, e.status.IsOk = true) ∧
  (r.status = Status.Success → r.backend = some fresh) ∧
  (r.status ≠ Status.Success → r.backend = backend ∧ ∃ e ∈ r.trace, e.status = r.status)

/-- The steps of `OnnxBackendFactory::CreateBackend` are made in sequence: each call is in the
trace as soon as the calls before it succeeded. -/
def OnnxBackendFactory.StepsInSequence (env : Env) (nonlocal_path : String)
    (model_config : ModelConfig) (min_compute_capability : Float) (trace : List Event) : Prop :=
  env.localizeEvent nonlocal_path ∈ trace ∧
  ((env.LocalizeDirectory nonlocal_path).1.IsOk = true →
    env.filesEvent nonlocal_path ∈ trace ∧
    ((env.GetDirectoryFiles (env.root nonlocal_path) true).1.IsOk = true →
      env.subdirsEvent nonlocal_path ∈ trace ∧
      ((env.GetDirectorySubdirs (env.root nonlocal_path)).1.IsOk = true →
        (∀ pre f post, env.files nonlocal_path = pre ++ f :: post →
          (∀ g ∈ pre, (env.read nonlocal_path g).1.IsOk = true) →
          env.readEvent nonlocal_path f ∈ trace) ∧
        ((∀ f ∈ env.files nonlocal_path, (env.read nonlocal_path f).1.IsOk = true) →
          OnnxBackendFactory.initEvent env nonlocal_path model_config
            min_compute_capability ∈ trace ∧
          ((OnnxBackendFactory.initEvent env nonlocal_path model_config
              min_compute_capability).status.IsOk = true →
            OnnxBackendFactory.contextsEvent env nonlocal_path model_config
              min_compute_capability ∈ trace)))))

/-- The steps of `GraphDefBackendFactory::CreateBackend` are made in sequence: each call is in
the trace as soon as the calls before it succeeded. -/
def GraphDefBackendFactory.StepsInSequence (env : Env) (self : GraphDefBackendFactory)
    (nonlocal_path : String) (model_config : ModelConfig) (min_compute_capability : Float)
    (trace : List Event) : Prop :=
  env.localizeEvent nonlocal_path ∈ trace ∧
  ((env.LocalizeDirectory nonlocal_path).1.IsOk = true →
    env.filesEvent nonlocal_path ∈ trace ∧
    ((env.GetDirectoryFiles (env.root nonlocal_path) true).1.IsOk = true →
      self.initEvent env nonlocal_path model_config min_compute_capability ∈ trace ∧
      ((self.initEvent env nonlocal_path model_config
          min_compute_capability).status.IsOk = true →
        self.contextsEvent env nonlocal_path model_config min_compute_capability ∈ trace)))

/-! ## Lemmas on the map -/

namespace UnorderedMap
variable {V : Type}

theorem keys_append (m l : UnorderedMap V) : keys (m ++ l) = keys m ++ keys l := by
  simp [keys]

theorem keys_emplace (m : UnorderedMap V) (k : String) (v : V) :
    (m.emplace k v).keys = if k ∈ m.keys then m.keys else m.keys ++ [k] := by
  unfold emplace
  split <;> simp [keys]

theorem mem_keys_emplace (m : UnorderedMap V) (k : String) (v : V) (x : String) :
    x ∈ (m.emplace k v).keys ↔ x ∈ m.keys ∨ x = k := by
  rw [keys_emplace]
  split
  · constructor
    · intro h; exact Or.inl h
    · rintro (h | h)
      · exact h
      · subst h; assumption
  · simp

theorem mem_keys_emplaceAll (es : List (String × V)) (m : UnorderedMap V) (x : String) :
    x ∈ (m.emplaceAll es).keys ↔ x ∈ m.keys ∨ x ∈ keys es := by
  induction es generalizing m with
  | nil => simp [emplaceAll, keys]
  | cons e es ih =>
    simp only [emplaceAll]
    rw [ih, mem_keys_emplace]
    simp only [keys, List.map_cons, List.mem_cons]
    tauto

theorem nodup_keys_emplace (m : UnorderedMap V) (k : String) (v : V) (h : m.keys.Nodup) :
    (m.emplace k v).keys.Nodup := by
  rw [keys_emplace]
  split
  · exact h
  · rename_i hk
    rw [List.nodup_append]
    refine ⟨h, List.nodup_singleton k, ?_⟩
    intro a ha hb
    simp at hb
    subst hb
    exact hk ha

theorem nodup_keys_emplaceAll (es : List (String × V)) (m : UnorderedMap V)
    (h : m.keys.Nodup) : (m.emplaceAll es).keys.Nodup := by
  induction es generalizing m with
  | nil => simpa [emplaceAll] using h
  | cons e es ih => exact ih _ (nodup_keys_emplace m e.1 e.2 h)

theorem lookup_append (k : String) (m l : UnorderedMap V) :
    List.lookup k (m ++ l) = (List.lookup k m).orElse (fun _ => List.lookup k l) := by
  induction m with
  | nil => simp
  | cons e m ih =>
    obtain ⟨a, b⟩ := e
    simp only [List.cons_append, List.lookup_cons]
    split
    · simp
    · exact ih

theorem lookup_eq_none_of_not_mem (k : String) (m : UnorderedMap V) (h : k ∉ m.keys) :
    List.lookup k m = none := by
  induction m with
  | nil => simp
  | cons e m ih =>
    obtain ⟨a, b⟩ := e
    simp only [keys, List.map_cons, List.mem_cons, not_or] at h
    simp only [List.lookup_cons]
    have : (k == a) = false := by simpa using h.1
    rw [this]
    exact ih h.2

theorem lookup_isSome_of_mem (k : String) (m : UnorderedMap V) (h : k ∈ m.keys) :
    (List.lookup k m).isSome = true := by
  induction m with
  | nil => simp [keys] at h
  | cons e m ih =>
    obtain ⟨a, b⟩ := e
    simp only [keys, List.map_cons, List.mem_cons] at h
    simp only [List.lookup_cons]
    by_cases hka : k = a
    · subst hka; simp
    · have : (k == a) = false := by simpa using hka
      rw [this]
      exact ih (h.resolve_left hka)

theorem find_emplace (m : UnorderedMap V) (k : String) (v : V) (x : String) :
    (m.emplace k v).find x = find (m ++ [(k, v)]) x := by
  unfold emplace find
  split
  · rename_i hk
    rw [lookup_append]
    by_cases hx : x = k
    · subst hx
      have := lookup_isSome_of_mem x m hk
      cases h : List.lookup x m with
      | none => simp [h] at this
      | some w => simp
    · have : (x == k) = false := by simpa using hx
      cases h : List.lookup x m with
      | none => simp [List.lookup_cons, this]
      | some w => simp
  · rfl

theorem find_emplaceAll (es : List (String × V)) (m : UnorderedMap V) (x : String) :
    (m.emplaceAll es).find x = find (m ++ es) x := by
  induction es generalizing m with
  | nil => simp [emplaceAll]
  | cons e es ih =>
    simp only [emplaceAll]
    rw [ih]
    have h1 := find_emplace m e.1 e.2 x
    have h2 : m ++ e :: es = (m ++ [e]) ++ es := by simp
    unfold find at h1 ⊢
    rw [h2, lookup_append, lookup_append x (m ++ [e]), h1]

theorem emplaceAll_eq_append (es : List (String × V)) (m : UnorderedMap V)
    (h : (keys (m ++ es)).Nodup) : m.emplaceAll es = m ++ es := by
  induction es generalizing m with
  | nil => simp [emplaceAll]
  | cons e es ih =>
    simp only [emplaceAll]
    have hk : e.1 ∉ m.keys := by
      intro hmem
      rw [keys_append, List.nodup_append] at h
      exact h.2.2 hmem (by simp [keys])
    have he : m.emplace e.1 e.2 = m ++ [e] := by
      unfold emplace
      rw [if_neg hk]
    rw [he, ih]
    · simp
    · simpa using h

theorem size_emplaceAll (es : List (String × V)) (m : UnorderedMap V) (h : m.keys.Nodup) :
    (m.emplaceAll es).size = (m.keys.toFinset ∪ (keys es).toFinset).card := by
  have hn := nodup_keys_emplaceAll es m h
  have h1 : (m.emplaceAll es).size = (m.emplaceAll es).keys.length := by simp [size, keys]
  rw [h1, ← List.toFinset_card_of_nodup hn]
  congr 1
  ext x
  simp [mem_keys_emplaceAll]

end UnorderedMap

/-! ## Lemmas on the two member functions -/

theorem insertSubdirs_eq (env : Env) (root : String) (ds : List String) (m : OnnxModels) :
    OnnxBackendFactory.insertSubdirs env root ds m
      = UnorderedMap.emplaceAll m (subdirEntries env root ds) := by
  induction ds generalizing m with
  | nil => rfl
  | cons d ds ih =>
    simp only [OnnxBackendFactory.insertSubdirs, subdirEntries, List.map_cons,
      UnorderedMap.emplaceAll]
    exact ih _

theorem readFiles_ok (env : Env) (root : String) (fs : List String) (m : OnnxModels)
    (h : ∀ f ∈ fs, (env.ReadTextFile (env.JoinPath [root, f])).1.IsOk = true) :
    OnnxBackendFactory.readFiles env root fs m
      = (Status.Success, UnorderedMap.emplaceAll m (fileEntries env root fs),
          readEvents env root fs) := by
  induction fs generalizing m with
  | nil => rfl
  | cons f fs ih =>
    have hf := h f (List.mem_cons_self f fs)
    have ht := ih (UnorderedMap.emplace m f (true, (env.ReadTextFile (env.JoinPath [root, f])).2))
      (fun g hg => h g (List.mem_cons_of_mem f hg))
    simp only [OnnxBackendFactory.readFiles, hf, ht, fileEntries, readEvents, List.map_cons,
      UnorderedMap.emplaceAll]
    simp

theorem readFiles_fail (env : Env) (root : String) (pre : List String) (f : String)
    (post : List String) (m : OnnxModels)
    (h : ∀ g ∈ pre, (env.ReadTextFile (env.JoinPath [root, g])).1.IsOk = true)
    (hf : (env.ReadTextFile (env.JoinPath [root, f])).1.IsOk = false) :
    OnnxBackendFactory.readFiles env root (pre ++ f :: post) m
      = ((env.ReadTextFile (env.JoinPath [root, f])).1,
          UnorderedMap.emplaceAll m (fileEntries env root pre),
          readEvents env root (pre ++ [f])) := by
  induction pre generalizing m with
  | nil =>
    simp [OnnxBackendFactory.readFiles, hf, fileEntries, readEvents, UnorderedMap.emplaceAll]
  | cons g pre ih =>
    have hg := h g (List.mem_cons_self g pre)
    have ht := ih (UnorderedMap.emplace m g (true, (env.ReadTextFile (env.JoinPath [root, g])).2))
      (fun x hx => h x (List.mem_cons_of_mem g hx))
    rw [List.cons_append, OnnxBackendFactory.readFiles]
    simp only [hg, ht, fileEntries, readEvents, List.map_cons, UnorderedMap.emplaceAll,
      List.cons_append]
    simp

/-- Either every listed file is read successfully, or the listing splits at the first file
whose read fails. -/
theorem reads_ok_or_first_fail (env : Env) (root : String) (fs : List String) :
    (∀ f ∈ fs, (env.ReadTextFile (env.JoinPath [root, f])).1.IsOk = true) ∨
    ∃ pre f post, fs = pre ++ f :: post ∧
      (∀ g ∈ pre, (env.ReadTextFile (env.JoinPath [root, g])).1.IsOk = true) ∧
      (env.ReadTextFile (env.JoinPath [root, f])).1.IsOk = false := by
  induction fs with
  | nil => left; simp
  | cons f fs ih =>
    cases hf : (env.ReadTextFile (env.JoinPath [root, f])).1.IsOk with
    | false => right; exact ⟨[], f, fs, rfl, by simp, hf⟩
    | true =>
      rcases ih with h | ⟨pre, g, post, h1, h2, h3⟩
      · left
        intro x hx
        rcases List.mem_cons.mp hx with rfl | hx
        · exact hf
        · exact h x hx
      · right
        refine ⟨f :: pre, g, post, by simp [h1], ?_, h3⟩
        intro x hx
        rcases List.mem_cons.mp hx with rfl | hx
        · exact hf
        · exact h2 x hx

theorem Status.eq_Success_of_IsOk {s : Status} (h : s.IsOk = true) : s = Status.Success := by
  cases s with
  | Success => rfl
  | Error k m => simp [Status.IsOk] at h

theorem FailFast.nil : FailFast Status.Success [] := by
  constructor
  · intro _; exact ⟨rfl, by simp⟩
  · intro h; simp [Status.IsOk] at h

theorem FailFast.cons {st : Status} {tr : List Event} (e : Event) (he : e.status.IsOk = true)
    (h : FailFast st tr) : FailFast st (e :: tr) := by
  constructor
  · intro hs
    obtain ⟨h1, h2⟩ := h.1 hs
    refine ⟨h1, ?_⟩
    intro x hx
    rcases List.mem_cons.mp hx with rfl | hx
    · exact he
    · exact h2 x hx
  · intro hs
    obtain ⟨pre, x, h1, h2, h3⟩ := h.2 hs
    refine ⟨e :: pre, x, by simp [h1], h2, ?_⟩
    intro y hy
    rcases List.mem_cons.mp hy with rfl | hy
    · exact he
    · exact h3 y hy

theorem FailFast.append {st : Status} {tr : List Event} (l : List Event)
    (hl : ∀ e ∈ l, e.status.IsOk = true) (h : FailFast st tr) : FailFast st (l ++ tr) := by
  induction l with
  | nil => simpa using h
  | cons e l ih =>
    exact FailFast.cons e (hl e (List.mem_cons_self e l))
      (ih (fun x hx => hl x (List.mem_cons_of_mem e hx)))

theorem FailFast.single (e : Event) : FailFast (if e.status.IsOk then Status.Success else e.status) [e] := by
  cases he : e.status.IsOk with
  | true =>
    simp only [if_true]
    exact FailFast.cons e he FailFast.nil
  | false =>
    simp only [Bool.false_eq_true, if_false]
    constructor
    · intro h; rw [he] at h; cases h
    · intro _; exact ⟨[], e, rfl, rfl, by simp⟩

theorem FailFast.fail (e : Event) (he : e.status.IsOk = false) : FailFast e.status [e] := by
  have := FailFast.single e
  simpa [he] using this

theorem onnx_localize_fail (env : Env) (self : OnnxBackendFactory) (p : String)
    (cfg : ModelConfig) (cc : Float) (backend : Option InferenceBackend)
    (h1 : (env.LocalizeDirectory p).1.IsOk = false) :
    self.CreateBackend env p cfg cc backend
      = ⟨(env.LocalizeDirectory p).1, backend, [env.localizeEvent p]⟩ := by
  simp [OnnxBackendFactory.CreateBackend, h1, Env.localizeEvent]

theorem onnx_files_fail (env : Env) (self : OnnxBackendFactory) (p : String)
    (cfg : ModelConfig) (cc : Float) (backend : Option InferenceBackend)
    (h1 : (env.LocalizeDirectory p).1.IsOk = true)
    (h2 : (env.GetDirectoryFiles (env.root p) true).1.IsOk = false) :
    self.CreateBackend env p cfg cc backend
      = ⟨(env.GetDirectoryFiles (env.root p) true).1, backend,
          [env.localizeEvent p, env.filesEvent p]⟩ := by
  unfold Env.root at h2
  simp [OnnxBackendFactory.CreateBackend, h1, h2, Env.localizeEvent, Env.filesEvent, Env.root]

theorem onnx_subdirs_fail (env : Env) (self : OnnxBackendFactory) (p : String)
    (cfg : ModelConfig) (cc : Float) (backend : Option InferenceBackend)
    (h1 : (env.LocalizeDirectory p).1.IsOk = true)
    (h2 : (env.GetDirectoryFiles (env.root p) true).1.IsOk = true)
    (h3 : (env.GetDirectorySubdirs (env.root p)).1.IsOk = false) :
    self.CreateBackend env p cfg cc backend
      = ⟨(env.GetDirectorySubdirs (env.root p)).1, backend,
          [env.localizeEvent p, env.filesEvent p, env.subdirsEvent p]⟩ := by
  unfold Env.root at h2 h3
  simp [OnnxBackendFactory.CreateBackend, h1, h2, h3, Env.localizeEvent, Env.filesEvent,
    Env.subdirsEvent, Env.root]

theorem onnx_read_fail (env : Env) (self : OnnxBackendFactory) (p : String)
    (cfg : ModelConfig) (cc : Float) (backend : Option InferenceBackend)
    (h1 : (env.LocalizeDirectory p).1.IsOk = true)
    (h2 : (env.GetDirectoryFiles (env.root p) true).1.IsOk = true)
    (h3 : (env.GetDirectorySubdirs (env.root p)).1.IsOk = true)
    (pre : List String) (f : String) (post : List String)
    (hfs : env.files p = pre ++ f :: post)
    (hpre : ∀ g ∈ pre, (env.read p g).1.IsOk = true)
    (hf : (env.read p f).1.IsOk = false) :
    self.CreateBackend env p cfg cc backend
      = ⟨(env.read p f).1, backend,
          [env.localizeEvent p, env.filesEvent p, env.subdirsEvent p]
            ++ (pre ++ [f]).map (env.readEvent p)⟩ := by
  have hr := readFiles_fail env (env.root p) pre f post
    (OnnxBackendFactory.insertSubdirs env (env.root p) (env.subdirs p) []) hpre hf
  rw [← hfs] at hr
  simp only [Env.files, Env.subdirs, Env.read, Env.readEvent, Env.childPath, Env.localizeEvent,
    Env.filesEvent, Env.subdirsEvent, Env.root, readEvents] at *
  simp [OnnxBackendFactory.CreateBackend, h1, h2, h3, hr, hf]
  rfl

theorem onnx_collected_of_reads_ok (env : Env) (p : String)
    (h4 : ∀ f ∈ env.files p, (env.read p f).1.IsOk = true) :
    OnnxBackendFactory.collected env p
      = UnorderedMap.emplaceAll (UnorderedMap.emplaceAll [] (subdirEntries env (env.root p) (env.subdirs p)))
          (fileEntries env (env.root p) (env.files p)) := by
  unfold OnnxBackendFactory.collected
  rw [readFiles_ok env (env.root p) (env.files p) _ h4, insertSubdirs_eq]

theorem onnx_reads_ok (env : Env) (self : OnnxBackendFactory) (p : String)
    (cfg : ModelConfig) (cc : Float) (backend : Option InferenceBackend)
    (h1 : (env.LocalizeDirectory p).1.IsOk = true)
    (h2 : (env.GetDirectoryFiles (env.root p) true).1.IsOk = true)
    (h3 : (env.GetDirectorySubdirs (env.root p)).1.IsOk = true)
    (h4 : ∀ f ∈ env.files p, (env.read p f).1.IsOk = true) :
    self.CreateBackend env p cfg cc backend
      = if (OnnxBackendFactory.initEvent env p cfg cc).status.IsOk = false then
          ⟨(OnnxBackendFactory.initEvent env p cfg cc).status, backend,
            [env.localizeEvent p, env.filesEvent p, env.subdirsEvent p]
              ++ (env.files p).map (env.readEvent p)
              ++ [OnnxBackendFactory.initEvent env p cfg cc]⟩
        else if (OnnxBackendFactory.contextsEvent env p cfg cc).status.IsOk = false then
          ⟨(OnnxBackendFactory.contextsEvent env p cfg cc).status, backend,
            [env.localizeEvent p, env.filesEvent p, env.subdirsEvent p]
              ++ (env.files p).map (env.readEvent p)
              ++ [OnnxBackendFactory.initEvent env p cfg cc,
                  OnnxBackendFactory.contextsEvent env p cfg cc]⟩
        else
          ⟨Status.Success,
            some (InferenceBackend.onnx ⟨cc, some (p, cfg, env.kOnnxRuntimeOnnxPlatform),
              some (OnnxBackendFactory.collected env p)⟩),
            [env.localizeEvent p, env.filesEvent p, env.subdirsEvent p]
              ++ (env.files p).map (env.readEvent p)
              ++ [OnnxBackendFactory.initEvent env p cfg cc,
                  OnnxBackendFactory.contextsEvent env p cfg cc]⟩ := by
  have hr := readFiles_ok env (env.root p) (env.files p)
    (OnnxBackendFactory.insertSubdirs env (env.root p) (env.subdirs p) []) h4
  simp only [OnnxBackendFactory.collected, OnnxBackendFactory.initEvent,
    OnnxBackendFactory.contextsEvent, Env.files, Env.subdirs, Env.read, Env.readEvent,
    Env.childPath, Env.localizeEvent, Env.filesEvent, Env.subdirsEvent, Env.root,
    readEvents] at *
  simp only [OnnxBackendFactory.CreateBackend, h1, h2, h3, hr]
  simp only [Status.IsOk, Bool.not_true, Bool.false_eq_true, if_false, Bool.not_eq_true',
    List.append_assoc, List.singleton_append, List.cons_append, List.nil_append]
  rfl

theorem insertFiles_eq (env : Env) (root : String) (fs : List String) (m : GraphDefModels) :
    GraphDefBackendFactory.insertFiles env root fs m
      = UnorderedMap.emplaceAll m (fs.map (fun f => (f, env.JoinPath [root, f]))) := by
  induction fs generalizing m with
  | nil => rfl
  | cons f fs ih =>
    simp only [GraphDefBackendFactory.insertFiles, List.map_cons, UnorderedMap.emplaceAll]
    exact ih _

theorem graphdef_localize_fail (env : Env) (self : GraphDefBackendFactory) (p : String)
    (cfg : ModelConfig) (cc : Float) (backend : Option InferenceBackend)
    (h1 : (env.LocalizeDirectory p).1.IsOk = false) :
    self.CreateBackend env p cfg cc backend
      = ⟨(env.LocalizeDirectory p).1, backend, [env.localizeEvent p]⟩ := by
  simp [GraphDefBackendFactory.CreateBackend, h1, Env.localizeEvent]

theorem graphdef_files_fail (env : Env) (self : GraphDefBackendFactory) (p : String)
    (cfg : ModelConfig) (cc : Float) (backend : Option InferenceBackend)
    (h1 : (env.LocalizeDirectory p).1.IsOk = true)
    (h2 : (env.GetDirectoryFiles (env.root p) true).1.IsOk = false) :
    self.CreateBackend env p cfg cc backend
      = ⟨(env.GetDirectoryFiles (env.root p) true).1, backend,
          [env.localizeEvent p, env.filesEvent p]⟩ := by
  unfold Env.root at h2
  simp [GraphDefBackendFactory.CreateBackend, h1, h2, Env.localizeEvent, Env.filesEvent,
    Env.root]

theorem graphdef_files_ok (env : Env) (self : GraphDefBackendFactory) (p : String)
    (cfg : ModelConfig) (cc : Float) (backend : Option InferenceBackend)
    (h1 : (env.LocalizeDirectory p).1.IsOk = true)
    (h2 : (env.GetDirectoryFiles (env.root p) true).1.IsOk = true) :
    self.CreateBackend env p cfg cc backend
      = if (self.initEvent env p cfg cc).status.IsOk = false then
          ⟨(self.initEvent env p cfg cc).status, backend,
            [env.localizeEvent p, env.filesEvent p, self.initEvent env p cfg cc]⟩
        else if (self.contextsEvent env p cfg cc).status.IsOk = false then
          ⟨(self.contextsEvent env p cfg cc).status, backend,
            [env.localizeEvent p, env.filesEvent p, self.initEvent env p cfg cc,
              self.contextsEvent env p cfg cc]⟩
        else
          ⟨Status.Success,
            some (InferenceBackend.graphdef
              ⟨cc, some (p, cfg, self.backend_config_, env.kTensorFlowGraphDefPlatform),
                some (GraphDefBackendFactory.collected env p)⟩),
            [env.localizeEvent p, env.filesEvent p, self.initEvent env p cfg cc,
              self.contextsEvent env p cfg cc]⟩ := by
  simp only [GraphDefBackendFactory.collected, GraphDefBackendFactory.initEvent,
    GraphDefBackendFactory.contextsEvent, Env.files, Env.localizeEvent, Env.filesEvent,
    Env.root] at *
  simp only [GraphDefBackendFactory.CreateBackend, h1, h2]
  simp only [Bool.not_true, Bool.false_eq_true, if_false, Bool.not_eq_true',
    List.append_assoc, List.singleton_append, List.cons_append, List.nil_append]

theorem FailFast.claim {st : Status} {tr : List Event} (h : FailFast st tr) :
    (∀ e ∈ tr, e.status.IsOk = false →
      st = e.status ∧ ∃ pre, tr = pre ++ [e] ∧ ∀ x ∈ pre, x.status.IsOk = true) ∧
    (st = Status.Success ↔ ∀ e ∈ tr, e.status.IsOk = true) := by
  constructor
  · intro e he hfail
    cases hs : st.IsOk with
    | true =>
      have := (h.1 hs).2 e he
      rw [hfail] at this
      cases this
    | false =>
      obtain ⟨pre, x, h1, h2, h3⟩ := h.2 hs
      rw [h1] at he
      rcases List.mem_append.mp he with hp | hx
      · have := h3 e hp
        rw [hfail] at this
        cases this
      · have hex : e = x := by simpa using hx
        subst hex
        exact ⟨h2.symm, pre, h1, h3⟩
  · constructor
    · intro hs
      exact (h.1 (by rw [hs]; rfl)).2
    · intro hall
      cases hs : st.IsOk with
      | true => exact (h.1 hs).1
      | false =>
        obtain ⟨pre, x, h1, h2, _⟩ := h.2 hs
        have := hall x (by rw [h1]; simp)
        rw [h2, hs] at this
        cases this

theorem onnx_sound (env : Env) (self : OnnxBackendFactory) (p : String)
    (cfg : ModelConfig) (cc : Float) (backend : Option InferenceBackend) :
    (self.CreateBackend env p cfg cc backend).Sound backend
      (InferenceBackend.onnx ⟨cc, some (p, cfg, env.kOnnxRuntimeOnnxPlatform),
        some (OnnxBackendFactory.collected env p)⟩) := by
  unfold CreateBackendResult.Sound
  cases h1 : (env.LocalizeDirectory p).1.IsOk with
  | false =>
    rw [onnx_localize_fail env self p cfg cc backend h1]
    refine ⟨FailFast.fail (env.localizeEvent p) h1, fun _ => rfl, ?_⟩
    intro h; simp only at h; rw [h1] at h; cases h
  | true =>
  have e1 : (env.localizeEvent p).status.IsOk = true := h1
  cases h2 : (env.GetDirectoryFiles (env.root p) true).1.IsOk with
  | false =>
    rw [onnx_files_fail env self p cfg cc backend h1 h2]
    refine ⟨FailFast.cons _ e1 (FailFast.fail (env.filesEvent p) h2), fun _ => rfl, ?_⟩
    intro h; simp only at h; rw [h2] at h; cases h
  | true =>
  have e2 : (env.filesEvent p).status.IsOk = true := h2
  cases h3 : (env.GetDirectorySubdirs (env.root p)).1.IsOk with
  | false =>
    rw [onnx_subdirs_fail env self p cfg cc backend h1 h2 h3]
    refine ⟨FailFast.cons _ e1 (FailFast.cons _ e2 (FailFast.fail (env.subdirsEvent p) h3)),
      fun _ => rfl, ?_⟩
    intro h; simp only at h; rw [h3] at h; cases h
  | true =>
  have e3 : (env.subdirsEvent p).status.IsOk = true := h3
  have hpre : ∀ e ∈ [env.localizeEvent p, env.filesEvent p, env.subdirsEvent p],
      e.status.IsOk = true := by
    intro e he
    simp only [List.mem_cons, List.mem_singleton, List.not_mem_nil, or_false] at he
    rcases he with rfl | rfl | rfl <;> assumption
  rcases reads_ok_or_first_fail env (env.root p) (env.files p) with h4 | ⟨pre, f, post, hfs, h4, hf⟩
  · have hreads : ∀ e ∈ (env.files p).map (env.readEvent p), e.status.IsOk = true := by
      intro e he
      obtain ⟨f, hf, rfl⟩ := List.mem_map.mp he
      exact h4 f hf
    rw [onnx_reads_ok env self p cfg cc backend h1 h2 h3 h4]
    cases h5 : (OnnxBackendFactory.initEvent env p cfg cc).status.IsOk with
    | false =>
      simp only [if_true]
      refine ⟨FailFast.append _ ?_ (FailFast.fail _ h5), fun _ => trivial, ?_⟩
      · intro e he
        rcases List.mem_append.mp he with h | h
        · exact hpre e h
        · exact hreads e h
      · intro h; rw [h5] at h; cases h
    | true =>
      simp only [Bool.true_eq_false, if_false]
      cases h6 : (OnnxBackendFactory.contextsEvent env p cfg cc).status.IsOk with
      | false =>
        simp only [if_true]
        refine ⟨FailFast.append _ ?_ (FailFast.cons _ h5 (FailFast.fail _ h6)), fun _ => trivial, ?_⟩
        · intro e he
          rcases List.mem_append.mp he with h | h
          · exact hpre e h
          · exact hreads e h
        · intro h; rw [h6] at h; cases h
      | true =>
        simp only [Bool.true_eq_false, if_false]
        refine ⟨FailFast.append _ ?_ (FailFast.cons _ h5 (FailFast.cons _ h6 FailFast.nil)),
          ?_, fun _ => trivial⟩
        · intro e he
          rcases List.mem_append.mp he with h | h
          · exact hpre e h
          · exact hreads e h
        · intro h; simp [Status.IsOk] at h
  · have hreads : ∀ e ∈ pre.map (env.readEvent p), e.status.IsOk = true := by
      intro e he
      obtain ⟨g, hg, rfl⟩ := List.mem_map.mp he
      exact h4 g hg
    rw [onnx_read_fail env self p cfg cc backend h1 h2 h3 pre f post hfs h4 hf]
    refine ⟨?_, fun _ => rfl, ?_⟩
    · rw [List.map_append]
      have hf' : (env.readEvent p f).status.IsOk = false := hf
      have := FailFast.append _ hpre (FailFast.append _ hreads (FailFast.fail _ hf'))
      simpa using this
    · intro h
      have hf' : (env.read p f).1.IsOk = false := hf
      simp only at h; rw [hf'] at h; cases h

theorem graphdef_sound (env : Env) (self : GraphDefBackendFactory) (p : String)
    (cfg : ModelConfig) (cc : Float) (backend : Option InferenceBackend) :
    (self.CreateBackend env p cfg cc backend).Sound backend
      (InferenceBackend.graphdef
        ⟨cc, some (p, cfg, self.backend_config_, env.kTensorFlowGraphDefPlatform),
          some (GraphDefBackendFactory.collected env p)⟩) := by
  unfold CreateBackendResult.Sound
  cases h1 : (env.LocalizeDirectory p).1.IsOk with
  | false =>
    rw [graphdef_localize_fail env self p cfg cc backend h1]
    refine ⟨FailFast.fail (env.localizeEvent p) h1, fun _ => rfl, ?_⟩
    intro h; simp only at h; rw [h1] at h; cases h
  | true =>
  have e1 : (env.localizeEvent p).status.IsOk = true := h1
  cases h2 : (env.GetDirectoryFiles (env.root p) true).1.IsOk with
  | false =>
    rw [graphdef_files_fail env self p cfg cc backend h1 h2]
    refine ⟨FailFast.cons _ e1 (FailFast.fail (env.filesEvent p) h2), fun _ => rfl, ?_⟩
    intro h; simp only at h; rw [h2] at h; cases h
  | true =>
  have e2 : (env.filesEvent p).status.IsOk = true := h2
  rw [graphdef_files_ok env self p cfg cc backend h1 h2]
  cases h5 : (self.initEvent env p cfg cc).status.IsOk with
  | false =>
    simp only [if_true]
    refine ⟨FailFast.cons _ e1 (FailFast.cons _ e2 (FailFast.fail _ h5)), fun _ => trivial, ?_⟩
    intro h; rw [h5] at h; cases h
  | true =>
    simp only [Bool.true_eq_false, if_false]
    cases h6 : (self.contextsEvent env p cfg cc).status.IsOk with
    | false =>
      simp only [if_true]
      refine ⟨FailFast.cons _ e1 (FailFast.cons _ e2 (FailFast.cons _ h5 (FailFast.fail _ h6))),
        fun _ => trivial, ?_⟩
      intro h; rw [h6] at h; cases h
    | true =>
      simp only [Bool.true_eq_false, if_false]
      refine ⟨FailFast.cons _ e1 (FailFast.cons _ e2 (FailFast.cons _ h5
        (FailFast.cons _ h6 FailFast.nil))), ?_, fun _ => trivial⟩
      intro h; simp [Status.IsOk] at h

/-! ## The artifact map of the ONNX factory -/

theorem keys_subdirEntries (env : Env) (root : String) (ds : List String) :
    UnorderedMap.keys (subdirEntries env root ds) = ds := by
  simp [UnorderedMap.keys, subdirEntries, Function.comp_def]

theorem keys_fileEntries (env : Env) (root : String) (fs : List String) :
    UnorderedMap.keys (fileEntries env root fs) = fs := by
  simp [UnorderedMap.keys, fileEntries, Function.comp_def]

theorem lookup_map_of_mem {V : Type} (g : String → V) (l : List String) (k : String)
    (h : k ∈ l) : List.lookup k (l.map (fun x => (x, g x))) = some (g k) := by
  induction l with
  | nil => simp at h
  | cons a l ih =>
    simp only [List.map_cons, List.lookup_cons]
    by_cases hka : k = a
    · subst hka; simp
    · have : (k == a) = false := by simpa using hka
      rw [this]
      exact ih ((List.mem_cons.mp h).resolve_left hka)

theorem lookup_map_of_not_mem {V : Type} (g : String → V) (l : List String) (k : String)
    (h : k ∉ l) : List.lookup k (l.map (fun x => (x, g x))) = none := by
  apply UnorderedMap.lookup_eq_none_of_not_mem
  simpa [UnorderedMap.keys, Function.comp_def] using h

theorem onnxModelsHanded_reads (env : Env) (p : String) (fs : List String) :
    onnxModelsHanded (fs.map (env.readEvent p)) = [] := by
  induction fs with
  | nil => rfl
  | cons f fs ih =>
    simp only [onnxModelsHanded] at ih
    simp [onnxModelsHanded, List.filterMap_cons, Env.readEvent, Call.onnxModels, ih]

theorem filter_isRead_reads (env : Env) (p : String) (fs : List String) :
    (fs.map (env.readEvent p)).filter (fun e => e.call.isRead) = fs.map (env.readEvent p) := by
  induction fs with
  | nil => rfl
  | cons f fs ih =>
    simp [List.filter_cons, Env.readEvent, Call.isRead]

/-- The trace of a run in which localization, both listings, every read and `Init`
succeed. -/
theorem onnx_trace_of_init_ok (env : Env) (self : OnnxBackendFactory) (p : String)
    (cfg : ModelConfig) (cc : Float) (backend : Option InferenceBackend)
    (h1 : (env.LocalizeDirectory p).1.IsOk = true)
    (h2 : (env.GetDirectoryFiles (env.root p) true).1.IsOk = true)
    (h3 : (env.GetDirectorySubdirs (env.root p)).1.IsOk = true)
    (h4 : ∀ f ∈ env.files p, (env.read p f).1.IsOk = true)
    (h5 : (env.OnnxBackend_Init ⟨cc, none, none⟩ p cfg env.kOnnxRuntimeOnnxPlatform).IsOk = true) :
    (self.CreateBackend env p cfg cc backend).trace
      = [env.localizeEvent p, env.filesEvent p, env.subdirsEvent p]
          ++ (env.files p).map (env.readEvent p)
          ++ [OnnxBackendFactory.initEvent env p cfg cc,
              OnnxBackendFactory.contextsEvent env p cfg cc] := by
  rw [onnx_reads_ok env self p cfg cc backend h1 h2 h3 h4]
  have h5' : (OnnxBackendFactory.initEvent env p cfg cc).status.IsOk = true := h5
  rw [h5']
  simp only [Bool.true_eq_false, if_false]
  split <;> rfl

theorem onnx_handed_of_init_ok (env : Env) (self : OnnxBackendFactory) (p : String)
    (cfg : ModelConfig) (cc : Float) (backend : Option InferenceBackend)
    (h1 : (env.LocalizeDirectory p).1.IsOk = true)
    (h2 : (env.GetDirectoryFiles (env.root p) true).1.IsOk = true)
    (h3 : (env.GetDirectorySubdirs (env.root p)).1.IsOk = true)
    (h4 : ∀ f ∈ env.files p, (env.read p f).1.IsOk = true)
    (h5 : (env.OnnxBackend_Init ⟨cc, none, none⟩ p cfg env.kOnnxRuntimeOnnxPlatform).IsOk = true) :
    onnxModelsHanded (self.CreateBackend env p cfg cc backend).trace
      = [OnnxBackendFactory.collected env p] := by
  rw [onnx_trace_of_init_ok env self p cfg cc backend h1 h2 h3 h4 h5]
  have hr := onnxModelsHanded_reads env p (env.files p)
  simp only [onnxModelsHanded] at hr ⊢
  rw [List.filterMap_append, List.filterMap_append, hr]
  rfl

theorem onnx_collected_eq_append (env : Env) (p : String)
    (h4 : ∀ f ∈ env.files p, (env.read p f).1.IsOk = true)
    (hf : (env.files p).Nodup) (hd : (env.subdirs p).Nodup)
    (hdis : ∀ n ∈ env.files p, n ∉ env.subdirs p) :
    OnnxBackendFactory.collected env p
      = subdirEntries env (env.root p) (env.subdirs p)
          ++ fileEntries env (env.root p) (env.files p) := by
  rw [onnx_collected_of_reads_ok env p h4]
  have h0 : UnorderedMap.emplaceAll ([] : OnnxModels) (subdirEntries env (env.root p) (env.subdirs p))
      = subdirEntries env (env.root p) (env.subdirs p) := by
    have := UnorderedMap.emplaceAll_eq_append (subdirEntries env (env.root p) (env.subdirs p)) []
      (by simpa [keys_subdirEntries] using hd)
    simpa using this
  rw [h0]
  apply UnorderedMap.emplaceAll_eq_append
  rw [UnorderedMap.keys_append, keys_subdirEntries, keys_fileEntries, List.nodup_append]
  refine ⟨hd, hf, ?_⟩
  intro a ha hb
  exact hdis a hb ha

theorem onnx_find_collected (env : Env) (p : String)
    (h4 : ∀ f ∈ env.files p, (env.read p f).1.IsOk = true) (k : String) :
    UnorderedMap.find (OnnxBackendFactory.collected env p) k
      = (List.lookup k (subdirEntries env (env.root p) (env.subdirs p))).orElse
          (fun _ => List.lookup k (fileEntries env (env.root p) (env.files p))) := by
  rw [onnx_collected_of_reads_ok env p h4, UnorderedMap.find_emplaceAll]
  unfold UnorderedMap.find
  rw [UnorderedMap.lookup_append]
  have := UnorderedMap.find_emplaceAll (subdirEntries env (env.root p) (env.subdirs p)) [] k
  unfold UnorderedMap.find at this
  rw [this]
  simp

theorem onnx_mem_keys_collected (env : Env) (p : String)
    (h4 : ∀ f ∈ env.files p, (env.read p f).1.IsOk = true) (k : String) :
    k ∈ UnorderedMap.keys (OnnxBackendFactory.collected env p)
      ↔ k ∈ env.files p ∨ k ∈ env.subdirs p := by
  rw [onnx_collected_of_reads_ok env p h4, UnorderedMap.mem_keys_emplaceAll,
    UnorderedMap.mem_keys_emplaceAll, keys_subdirEntries, keys_fileEntries]
  simp [UnorderedMap.keys]
  tauto

theorem onnx_size_collected (env : Env) (p : String)
    (h4 : ∀ f ∈ env.files p, (env.read p f).1.IsOk = true) :
    UnorderedMap.size (OnnxBackendFactory.collected env p)
      = ((env.files p).toFinset ∪ (env.subdirs p).toFinset).card := by
  rw [onnx_collected_of_reads_ok env p h4, UnorderedMap.size_emplaceAll]
  · congr 1
    ext x
    simp only [Finset.mem_union, List.mem_toFinset, UnorderedMap.mem_keys_emplaceAll,
      keys_subdirEntries, keys_fileEntries]
    simp [UnorderedMap.keys]
    tauto
  · exact UnorderedMap.nodup_keys_emplaceAll _ _ (by simp [UnorderedMap.keys])

/-- C1. `OnnxBackendFactory::CreateBackend`, size of the artifact map: when the file listing
returns N names and the subdirectory listing M names, no name being in both, and every step
up to `Init` succeeds, the map handed to `CreateExecutionContexts` has N+M entries, N of them
flagged as file contents and M flagged as paths. -/
theorem C1_onnx_artifact_map_size (env : Env) (self : OnnxBackendFactory) (p : String)
    (cfg : ModelConfig) (cc : Float) (backend : Option InferenceBackend)
    (h1 : (env.LocalizeDirectory p).1.IsOk = true)
    (h2 : (env.GetDirectoryFiles (env.root p) true).1.IsOk = true)
    (h3 : (env.GetDirectorySubdirs (env.root p)).1.IsOk = true)
    (hf : (env.files p).Nodup) (hd : (env.subdirs p).Nodup)
    (hdis : ∀ n ∈ env.files p, n ∉ env.subdirs p)
    (h4 : ∀ f ∈ env.files p, (env.read p f).1.IsOk = true)
    (h5 : (env.OnnxBackend_Init ⟨cc, none, none⟩ p cfg env.kOnnxRuntimeOnnxPlatform).IsOk = true) :
    ∃ models : OnnxModels,
      onnxModelsHanded (self.CreateBackend env p cfg cc backend).trace = [models] ∧
      UnorderedMap.size models = (env.files p).length + (env.subdirs p).length ∧
      (OnnxModels.inlineEntries models).length = (env.files p).length ∧
      (OnnxModels.externalEntries models).length = (env.subdirs p).length := by
  refine ⟨OnnxBackendFactory.collected env p,
    onnx_handed_of_init_ok env self p cfg cc backend h1 h2 h3 h4 h5, ?_⟩
  rw [onnx_collected_eq_append env p h4 hf hd hdis]
  refine ⟨?_, ?_, ?_⟩
  · simp [UnorderedMap.size, subdirEntries, fileEntries, Nat.add_comm]
  · simp [OnnxModels.inlineEntries, subdirEntries, fileEntries, List.filter_append,
      List.filter_map, Function.comp_def]
  · simp [OnnxModels.externalEntries, subdirEntries, fileEntries, List.filter_append,
      List.filter_map, Function.comp_def]

/-- An instance of C1: scenario B, one file and one subdirectory. -/
theorem C1_onnx_artifact_map_size_witness :
    ∃ models : OnnxModels,
      onnxModelsHanded ((⟨⟨0⟩⟩ : OnnxBackendFactory).CreateBackend scenarioB.env "s3://repo/model/1"
        sampleConfig 6.0 none).trace = [models] ∧
      UnorderedMap.size models = 1 + 1 ∧
      (OnnxModels.inlineEntries models).length = 1 ∧
      (OnnxModels.externalEntries models).length = 1 :=
  C1_onnx_artifact_map_size scenarioB.env ⟨⟨0⟩⟩ "s3://repo/model/1" sampleConfig 6.0 none
    (by decide) (by decide) (by decide) (by decide) (by decide) (by decide) (by decide) (by decide)

theorem onnx_find_subdir (env : Env) (p : String)
    (h4 : ∀ f ∈ env.files p, (env.read p f).1.IsOk = true) (d : String)
    (hd : d ∈ env.subdirs p) :
    UnorderedMap.find (OnnxBackendFactory.collected env p) d
      = some (false, env.childPath p d) := by
  rw [onnx_find_collected env p h4]
  unfold subdirEntries
  rw [lookup_map_of_mem (fun x => (false, env.JoinPath [env.root p, x])) _ d hd]
  rfl

theorem onnx_find_file (env : Env) (p : String)
    (h4 : ∀ f ∈ env.files p, (env.read p f).1.IsOk = true) (f : String)
    (hf : f ∈ env.files p) (hn : f ∉ env.subdirs p) :
    UnorderedMap.find (OnnxBackendFactory.collected env p) f
      = some (true, (env.read p f).2) := by
  rw [onnx_find_collected env p h4]
  unfold subdirEntries fileEntries
  rw [lookup_map_of_not_mem (fun x => (false, env.JoinPath [env.root p, x])) _ f hn,
    lookup_map_of_mem (fun x => (true, (env.ReadTextFile (env.JoinPath [env.root p, x])).2)) _ f hf]
  rfl

theorem onnx_reads_of_init_ok (env : Env) (self : OnnxBackendFactory) (p : String)
    (cfg : ModelConfig) (cc : Float) (backend : Option InferenceBackend)
    (h1 : (env.LocalizeDirectory p).1.IsOk = true)
    (h2 : (env.GetDirectoryFiles (env.root p) true).1.IsOk = true)
    (h3 : (env.GetDirectorySubdirs (env.root p)).1.IsOk = true)
    (h4 : ∀ f ∈ env.files p, (env.read p f).1.IsOk = true)
    (h5 : (env.OnnxBackend_Init ⟨cc, none, none⟩ p cfg env.kOnnxRuntimeOnnxPlatform).IsOk = true) :
    (self.CreateBackend env p cfg cc backend).trace.filter (fun e => e.call.isRead)
      = (env.files p).map (env.readEvent p) := by
  rw [onnx_trace_of_init_ok env self p cfg cc backend h1 h2 h3 h4 h5, List.filter_append,
    List.filter_append, filter_isRead_reads]
  simp [Env.localizeEvent, Env.filesEvent, Env.subdirsEvent, OnnxBackendFactory.initEvent,
    OnnxBackendFactory.contextsEvent, Call.isRead]

/-- C2. `OnnxBackendFactory::CreateBackend`, values of the artifact map. The listings of one
directory share no name; when every step up to `Init` succeeds, the map handed to
`CreateExecutionContexts` maps every listed file name to the contents entry of the file at
its local path and every listed subdirectory name to the path entry of its local path; the
reads made are one per listed file name, in order, and no other, and no subdirectory name is
among the names read. A listing of the single file `model.onnx` with contents `ABCDEFGHIJ`
yields the single contents entry, and a listing of subdirectory `weights` and file `graph.pb`
yields exactly the path entry and the contents entry. -/
theorem C2_onnx_artifact_values (env : Env) (self : OnnxBackendFactory) (p : String)
    (cfg : ModelConfig) (cc : Float) (backend : Option InferenceBackend)
    (h1 : (env.LocalizeDirectory p).1.IsOk = true)
    (h2 : (env.GetDirectoryFiles (env.root p) true).1.IsOk = true)
    (h3 : (env.GetDirectorySubdirs (env.root p)).1.IsOk = true)
    (hdis : ∀ n ∈ env.files p, n ∉ env.subdirs p)
    (h4 : ∀ f ∈ env.files p, (env.read p f).1.IsOk = true)
    (h5 : (env.OnnxBackend_Init ⟨cc, none, none⟩ p cfg env.kOnnxRuntimeOnnxPlatform).IsOk = true) :
    ∃ models : OnnxModels,
      onnxModelsHanded (self.CreateBackend env p cfg cc backend).trace = [models] ∧
      (∀ f ∈ env.files p, UnorderedMap.find models f = some (true, (env.read p f).2)) ∧
      (∀ d ∈ env.subdirs p, UnorderedMap.find models d = some (false, env.childPath p d)) ∧
      ((self.CreateBackend env p cfg cc backend).trace.filter (fun e => e.call.isRead)
          = (env.files p).map (env.readEvent p) ∧
        ∀ d ∈ env.subdirs p, d ∉ env.files p) ∧
      (env.files p = ["model.onnx"] → env.subdirs p = [] →
        (env.read p "model.onnx").2 = "ABCDEFGHIJ" →
        models = [("model.onnx", (true, "ABCDEFGHIJ"))]) ∧
      (env.files p = ["graph.pb"] → env.subdirs p = ["weights"] →
        models = [("weights", (false, env.childPath p "weights")),
                  ("graph.pb", (true, (env.read p "graph.pb").2))]) := by
  refine ⟨OnnxBackendFactory.collected env p,
    onnx_handed_of_init_ok env self p cfg cc backend h1 h2 h3 h4 h5,
    fun f hf => onnx_find_file env p h4 f hf (hdis f hf),
    fun d hd => onnx_find_subdir env p h4 d hd,
    ⟨onnx_reads_of_init_ok env self p cfg cc backend h1 h2 h3 h4 h5,
      fun d hd hf => hdis d hf hd⟩, ?_, ?_⟩
  · intro hf hd hc
    rw [onnx_collected_eq_append env p h4 (by rw [hf]; simp) (by rw [hd]; simp)
      (by rw [hd]; simp), hf, hd]
    simp only [subdirEntries, fileEntries, List.map_nil, List.map_cons, List.nil_append]
    have : (env.ReadTextFile (env.JoinPath [env.root p, "model.onnx"])).2 = "ABCDEFGHIJ" := hc
    rw [this]
  · intro hf hd
    rw [onnx_collected_eq_append env p h4 (by rw [hf]; simp) (by rw [hd]; simp)
      (by rw [hf, hd]; decide), hf, hd]
    rfl

/-- Instances of C2: scenarios A and B. -/
theorem C2_onnx_artifact_values_witness :
    (∃ models : OnnxModels,
      onnxModelsHanded ((⟨⟨0⟩⟩ : OnnxBackendFactory).CreateBackend scenarioA.env
        "s3://repo/model/1" sampleConfig 6.0 none).trace = [models] ∧
      models = [("model.onnx", (true, "ABCDEFGHIJ"))]) ∧
    (∃ models : OnnxModels,
      onnxModelsHanded ((⟨⟨0⟩⟩ : OnnxBackendFactory).CreateBackend scenarioB.env
        "s3://repo/model/1" sampleConfig 6.0 none).trace = [models] ∧
      UnorderedMap.find models "graph.pb" = some (true, "GRAPHDEF") ∧
      UnorderedMap.find models "weights" = some (false, "/local/weights") ∧
      models = [("weights", (false, "/local/weights")), ("graph.pb", (true, "GRAPHDEF"))]) := by
  obtain ⟨modelsA, hmA, _, _, _, hA, _⟩ :=
    C2_onnx_artifact_values scenarioA.env ⟨⟨0⟩⟩ "s3://repo/model/1" sampleConfig 6.0 none
      (by decide) (by decide) (by decide) (by decide) (by decide) (by decide)
  obtain ⟨modelsB, hmB, hfB, hdB, _, _, hB⟩ :=
    C2_onnx_artifact_values scenarioB.env ⟨⟨0⟩⟩ "s3://repo/model/1" sampleConfig 6.0 none
      (by decide) (by decide) (by decide) (by decide) (by decide) (by decide)
  exact ⟨⟨modelsA, hmA, hA (by decide) (by decide) (by decide)⟩,
    ⟨modelsB, hmB, hfB "graph.pb" (by decide), hdB "weights" (by decide),
      hB (by decide) (by decide)⟩⟩

theorem readFiles_mem_of_ok_before (env : Env) (root : String) (pre : List String) (f : String)
    (post : List String) (m : OnnxModels)
    (h : ∀ g ∈ pre, (env.ReadTextFile (env.JoinPath [root, g])).1.IsOk = true) :
    (⟨Call.ReadTextFile (env.JoinPath [root, f]),
        (env.ReadTextFile (env.JoinPath [root, f])).1⟩ : Event)
      ∈ (OnnxBackendFactory.readFiles env root (pre ++ f :: post) m).2.2 := by
  induction pre generalizing m with
  | nil =>
    rw [List.nil_append, OnnxBackendFactory.readFiles]
    split <;> simp
  | cons g pre ih =>
    have hg := h g (List.mem_cons_self g pre)
    rw [List.cons_append, OnnxBackendFactory.readFiles]
    simp only [hg, Bool.not_true, Bool.false_eq_true, if_false]
    exact List.mem_cons_of_mem _ (ih _ (fun x hx => h x (List.mem_cons_of_mem g hx)))

theorem onnx_trace_contains_reads (env : Env) (self : OnnxBackendFactory) (p : String)
    (cfg : ModelConfig) (cc : Float) (backend : Option InferenceBackend)
    (h1 : (env.LocalizeDirectory p).1.IsOk = true)
    (h2 : (env.GetDirectoryFiles (env.root p) true).1.IsOk = true)
    (h3 : (env.GetDirectorySubdirs (env.root p)).1.IsOk = true) (e : Event)
    (he : e ∈ (OnnxBackendFactory.readFiles env (env.root p) (env.files p)
      (OnnxBackendFactory.insertSubdirs env (env.root p) (env.subdirs p) [])).2.2) :
    e ∈ (self.CreateBackend env p cfg cc backend).trace := by
  simp only [Env.files, Env.subdirs, Env.root] at *
  simp only [OnnxBackendFactory.CreateBackend, h1, h2, h3, Bool.not_true, Bool.false_eq_true,
    if_false]
  split
  · simp [he]
  · split
    · simp [he]
    · split <;> simp [he]

/-- C10. `OnnxBackendFactory::CreateBackend` with listings that may overlap. When every step
up to `Init` succeeds, the keys of the map handed to `CreateExecutionContexts` are the listed
file names together with the listed subdirectory names, a name in both listings is mapped to
the path entry, and the size of the map is the number of names in the union, which is less
than the number of file names plus the number of subdirectory names when some name is in
both. Whether or not it is also a subdirectory name, a file whose predecessors in the listing
were read successfully is read, and a failure of that read is returned by `CreateBackend`
with the handle as on entry. -/
theorem C10_onnx_overlapping_listings (env : Env) (self : OnnxBackendFactory) (p : String)
    (cfg : ModelConfig) (cc : Float) (backend : Option InferenceBackend)
    (h1 : (env.LocalizeDirectory p).1.IsOk = true)
    (h2 : (env.GetDirectoryFiles (env.root p) true).1.IsOk = true)
    (h3 : (env.GetDirectorySubdirs (env.root p)).1.IsOk = true) :
    ((∀ f ∈ env.files p, (env.read p f).1.IsOk = true) →
      (env.OnnxBackend_Init ⟨cc, none, none⟩ p cfg env.kOnnxRuntimeOnnxPlatform).IsOk = true →
      ∃ models : OnnxModels,
        onnxModelsHanded (self.CreateBackend env p cfg cc backend).trace = [models] ∧
        (∀ k, k ∈ UnorderedMap.keys models ↔ k ∈ env.files p ∨ k ∈ env.subdirs p) ∧
        (∀ k ∈ env.files p, k ∈ env.subdirs p →
          UnorderedMap.find models k = some (false, env.childPath p k)) ∧
        UnorderedMap.size models = ((env.files p).toFinset ∪ (env.subdirs p).toFinset).card ∧
        ((∃ k ∈ env.files p, k ∈ env.subdirs p) →
          UnorderedMap.size models
            < (env.files p).toFinset.card + (env.subdirs p).toFinset.card)) ∧
    (∀ pre f post, env.files p = pre ++ f :: post →
      (∀ g ∈ pre, (env.read p g).1.IsOk = true) →
      env.readEvent p f ∈ (self.CreateBackend env p cfg cc backend).trace ∧
      ((env.read p f).1.IsOk = false →
        (self.CreateBackend env p cfg cc backend).status = (env.read p f).1 ∧
        (self.CreateBackend env p cfg cc backend).backend = backend)) := by
  constructor
  · intro h4 h5
    refine ⟨OnnxBackendFactory.collected env p,
      onnx_handed_of_init_ok env self p cfg cc backend h1 h2 h3 h4 h5,
      fun k => onnx_mem_keys_collected env p h4 k,
      fun k _ hk => onnx_find_subdir env p h4 k hk,
      onnx_size_collected env p h4, ?_⟩
    rintro ⟨k, hkf, hkd⟩
    rw [onnx_size_collected env p h4]
    have hcard := Finset.card_union_add_card_inter (env.files p).toFinset (env.subdirs p).toFinset
    have hpos : 0 < ((env.files p).toFinset ∩ (env.subdirs p).toFinset).card := by
      apply Finset.card_pos.mpr
      exact ⟨k, by simp [hkf, hkd]⟩
    omega
  · intro pre f post hfs hpre
    constructor
    · apply onnx_trace_contains_reads env self p cfg cc backend h1 h2 h3
      rw [hfs]
      exact readFiles_mem_of_ok_before env (env.root p) pre f post _ hpre
    · intro hf
      rw [onnx_read_fail env self p cfg cc backend h1 h2 h3 pre f post hfs hpre hf]
      exact ⟨rfl, rfl⟩

/-- An instance of C10: the name `x` is listed as a file and as a subdirectory. -/
theorem C10_onnx_overlapping_listings_witness :
    (∃ models : OnnxModels,
      onnxModelsHanded ((⟨⟨0⟩⟩ : OnnxBackendFactory).CreateBackend overlapping.env
        "repo/model/1" sampleConfig 6.0 none).trace = [models] ∧
      UnorderedMap.find models "x" = some (false, "/local/x") ∧
      UnorderedMap.size models = 2) ∧
    ((⟨⟨0⟩⟩ : OnnxBackendFactory).CreateBackend overlappingUnreadable
        "repo/model/1" sampleConfig 6.0 none).status
      = Status.Error ErrorKind.IOError "read failure" := by
  constructor
  · obtain ⟨models, hm, _, hx, hs, _⟩ :=
      (C10_onnx_overlapping_listings overlapping.env ⟨⟨0⟩⟩ "repo/model/1" sampleConfig 6.0 none
        (by decide) (by decide) (by decide)).1 (by decide) (by decide)
    exact ⟨models, hm, hx "x" (by decide) (by decide), by rw [hs]; decide⟩
  · exact (((C10_onnx_overlapping_listings overlappingUnreadable ⟨⟨0⟩⟩ "repo/model/1"
      sampleConfig 6.0 none (by decide) (by decide) (by decide)).2 [] "x" ["y"] (by decide)
      (by decide)).2 (by decide)).1

/-! ## Hidden files -/

theorem mem_names_of_mem_fileNames (entries : List DirEntry) (n : String)
    (h : n ∈ entries.filterMap DirEntry.fileName) : n ∈ entries.map DirEntry.name := by
  induction entries with
  | nil => simp at h
  | cons e es ih =>
    cases e with
    | file name contents =>
      simp only [List.filterMap_cons, DirEntry.fileName, List.mem_cons] at h
      simp only [List.map_cons, DirEntry.name, List.mem_cons]
      rcases h with h | h
      · exact Or.inl h
      · exact Or.inr (ih h)
    | subdir name =>
      simp only [List.filterMap_cons, DirEntry.fileName] at h
      exact List.mem_cons_of_mem _ (ih h)

theorem mem_names_of_mem_subdirNames (entries : List DirEntry) (n : String)
    (h : n ∈ entries.filterMap DirEntry.subdirName) : n ∈ entries.map DirEntry.name := by
  induction entries with
  | nil => simp at h
  | cons e es ih =>
    cases e with
    | file name contents =>
      simp only [List.filterMap_cons, DirEntry.subdirName] at h
      exact List.mem_cons_of_mem _ (ih h)
    | subdir name =>
      simp only [List.filterMap_cons, DirEntry.subdirName, List.mem_cons] at h
      simp only [List.map_cons, DirEntry.name, List.mem_cons]
      rcases h with h | h
      · exact Or.inl h
      · exact Or.inr (ih h)

/-- In a directory whose children have distinct names, the file names are distinct, the
subdirectory names are distinct, and no file name is a subdirectory name. -/
theorem Directory.names_split (d : Directory) (h : d.names.Nodup) :
    d.fileNames.Nodup ∧ d.subdirNames.Nodup ∧ ∀ n ∈ d.fileNames, n ∉ d.subdirNames := by
  obtain ⟨entries⟩ := d
  simp only [Directory.names, Directory.fileNames, Directory.subdirNames] at *
  induction entries with
  | nil => simp
  | cons e es ih =>
    rw [List.map_cons, List.nodup_cons] at h
    obtain ⟨hf, hs, hdis⟩ := ih h.2
    cases e with
    | file name contents =>
      simp only [DirEntry.name] at h
      simp only [List.filterMap_cons, DirEntry.fileName, DirEntry.subdirName]
      refine ⟨List.nodup_cons.mpr ⟨fun hm => h.1 (mem_names_of_mem_fileNames es name hm), hf⟩,
        hs, ?_⟩
      intro n hn hn'
      rcases List.mem_cons.mp hn with rfl | hn
      · exact h.1 (mem_names_of_mem_subdirNames es n hn')
      · exact hdis n hn hn'
    | subdir name =>
      simp only [DirEntry.name] at h
      simp only [List.filterMap_cons, DirEntry.fileName, DirEntry.subdirName]
      refine ⟨hf,
        List.nodup_cons.mpr ⟨fun hm => h.1 (mem_names_of_mem_subdirNames es name hm), hs⟩, ?_⟩
      intro n hn hn'
      rcases List.mem_cons.mp hn' with rfl | hn'
      · exact h.1 (mem_names_of_mem_fileNames es n hn)
      · exact hdis n hn hn'

theorem graphdef_trace_of_init_ok (env : Env) (self : GraphDefBackendFactory) (p : String)
    (cfg : ModelConfig) (cc : Float) (backend : Option InferenceBackend)
    (h1 : (env.LocalizeDirectory p).1.IsOk = true)
    (h2 : (env.GetDirectoryFiles (env.root p) true).1.IsOk = true)
    (h5 : (env.GraphDefBackend_Init ⟨cc, none, none⟩ p cfg self.backend_config_
      env.kTensorFlowGraphDefPlatform).IsOk = true) :
    (self.CreateBackend env p cfg cc backend).trace
      = [env.localizeEvent p, env.filesEvent p, self.initEvent env p cfg cc,
          self.contextsEvent env p cfg cc] := by
  rw [graphdef_files_ok env self p cfg cc backend h1 h2]
  have h5' : (self.initEvent env p cfg cc).status.IsOk = true := h5
  rw [h5']
  simp only [Bool.true_eq_false, if_false]
  split <;> rfl

theorem graphdef_collected_eq (env : Env) (p : String) :
    GraphDefBackendFactory.collected env p
      = UnorderedMap.emplaceAll [] ((env.files p).map (fun f => (f, env.childPath p f))) := by
  unfold GraphDefBackendFactory.collected
  rw [insertFiles_eq]
  rfl

theorem graphdef_mem_keys_collected (env : Env) (p : String) (k : String) :
    k ∈ UnorderedMap.keys (GraphDefBackendFactory.collected env p) ↔ k ∈ env.files p := by
  rw [graphdef_collected_eq, UnorderedMap.mem_keys_emplaceAll]
  simp [UnorderedMap.keys, Function.comp_def]

theorem graphdef_find_collected (env : Env) (p : String) (f : String) (hf : f ∈ env.files p) :
    UnorderedMap.find (GraphDefBackendFactory.collected env p) f
      = some (env.childPath p f) := by
  rw [graphdef_collected_eq, UnorderedMap.find_emplaceAll]
  unfold UnorderedMap.find
  rw [List.nil_append]
  exact lookup_map_of_mem (fun x => env.childPath p x) _ f hf

theorem graphdef_size_collected (env : Env) (p : String) (hf : (env.files p).Nodup) :
    UnorderedMap.size (GraphDefBackendFactory.collected env p) = (env.files p).length := by
  rw [graphdef_collected_eq, UnorderedMap.emplaceAll_eq_append]
  · simp [UnorderedMap.size]
  · simpa [UnorderedMap.keys, Function.comp_def] using hf

/-- C3. Hidden files never become artifacts. Both factories list the files with
`skip_hidden_files` set. For a directory whose children have distinct names and a file
listing that returns the files that are not hidden, no hidden file name is a key of the map
handed to `CreateExecutionContexts`: in the ONNX factory when the subdirectory listing
returns the subdirectories and every step up to `Init` succeeds, in the GraphDef factory when
`Init` succeeds. The ONNX map has as many entries as there are visible files and
subdirectories and the GraphDef map as many as there are visible files, so three visible
files, two hidden files and no subdirectory give three entries. -/
theorem C3_hidden_files_excluded (isHidden : String → Bool) (dir : Directory) (env : Env)
    (onnx : OnnxBackendFactory) (graphdef : GraphDefBackendFactory) (p : String)
    (cfg : ModelConfig) (cc : Float) (backend : Option InferenceBackend)
    (hnames : dir.names.Nodup)
    (h1 : (env.LocalizeDirectory p).1.IsOk = true)
    (h2 : (env.GetDirectoryFiles (env.root p) true).1.IsOk = true)
    (hfiles : (env.files p).Perm (dir.visibleFiles isHidden)) :
    ((env.GetDirectorySubdirs (env.root p)).1.IsOk = true →
      (env.subdirs p).Perm dir.subdirNames →
      (∀ f ∈ env.files p, (env.read p f).1.IsOk = true) →
      (env.OnnxBackend_Init ⟨cc, none, none⟩ p cfg env.kOnnxRuntimeOnnxPlatform).IsOk = true →
      ∃ models : OnnxModels,
        onnxModelsHanded (onnx.CreateBackend env p cfg cc backend).trace = [models] ∧
        (∀ n ∈ dir.hiddenFiles isHidden, n ∉ UnorderedMap.keys models) ∧
        UnorderedMap.size models
          = (dir.visibleFiles isHidden).length + dir.subdirNames.length ∧
        ((dir.visibleFiles isHidden).length = 3 → (dir.hiddenFiles isHidden).length = 2 →
          dir.subdirNames = [] → UnorderedMap.size models = 3) ∧
        (∀ e ∈ (onnx.CreateBackend env p cfg cc backend).trace, ∀ path skip_hidden_files,
          e.call = Call.GetDirectoryFiles path skip_hidden_files →
            skip_hidden_files = true)) ∧
    ((env.GraphDefBackend_Init ⟨cc, none, none⟩ p cfg graphdef.backend_config_
        env.kTensorFlowGraphDefPlatform).IsOk = true →
      ∃ models : GraphDefModels,
        graphdefModelsHanded (graphdef.CreateBackend env p cfg cc backend).trace = [models] ∧
        (∀ n ∈ dir.hiddenFiles isHidden, n ∉ UnorderedMap.keys models) ∧
        UnorderedMap.size models = (dir.visibleFiles isHidden).length ∧
        ((dir.visibleFiles isHidden).length = 3 → (dir.hiddenFiles isHidden).length = 2 →
          dir.subdirNames = [] → UnorderedMap.size models = 3) ∧
        (∀ e ∈ (graphdef.CreateBackend env p cfg cc backend).trace,
          ∀ path skip_hidden_files,
          e.call = Call.GetDirectoryFiles path skip_hidden_files →
            skip_hidden_files = true)) := by
  obtain ⟨hfn, hsn, hdis⟩ := dir.names_split hnames
  have hvis : (dir.visibleFiles isHidden).Nodup := List.Nodup.filter _ hfn
  have hfnd : (env.files p).Nodup := hfiles.nodup_iff.mpr hvis
  have hmemf : ∀ n, n ∈ env.files p → n ∈ dir.fileNames ∧ isHidden n = false := by
    intro n hn
    have := hfiles.mem_iff.mp hn
    simpa [Directory.visibleFiles] using this
  have hhidden : ∀ n ∈ dir.hiddenFiles isHidden, n ∈ dir.fileNames ∧ n ∉ env.files p := by
    intro n hn
    have hn2 : n ∈ dir.fileNames ∧ isHidden n = true := by
      simpa [Directory.hiddenFiles] using hn
    refine ⟨hn2.1, fun h => ?_⟩
    have := (hmemf n h).2
    rw [hn2.2] at this
    cases this
  constructor
  · intro h3 hsubdirs h4 h5
    have hsnd : (env.subdirs p).Nodup := hsubdirs.nodup_iff.mpr hsn
    have hdisj : ∀ n ∈ env.files p, n ∉ env.subdirs p := by
      intro n hn hn'
      exact hdis n (hmemf n hn).1 (hsubdirs.mem_iff.mp hn')
    have hsize : UnorderedMap.size (OnnxBackendFactory.collected env p)
        = (dir.visibleFiles isHidden).length + dir.subdirNames.length := by
      rw [onnx_collected_eq_append env p h4 hfnd hsnd hdisj, ← hfiles.length_eq,
        ← hsubdirs.length_eq]
      simp [UnorderedMap.size, subdirEntries, fileEntries, Nat.add_comm]
    refine ⟨OnnxBackendFactory.collected env p,
      onnx_handed_of_init_ok env onnx p cfg cc backend h1 h2 h3 h4 h5, ?_, hsize, ?_, ?_⟩
    · intro n hn hk
      rcases (onnx_mem_keys_collected env p h4 n).mp hk with h | h
      · exact (hhidden n hn).2 h
      · exact hdis n (hhidden n hn).1 (hsubdirs.mem_iff.mp h)
    · intro hv _ hs
      rw [hsize, hv, hs]
      rfl
    · intro e he path skip hcall
      rw [onnx_trace_of_init_ok env onnx p cfg cc backend h1 h2 h3 h4 h5] at he
      simp only [List.mem_append, List.mem_cons, List.mem_singleton, List.not_mem_nil,
        or_false, List.mem_map] at he
      rcases he with ((rfl | rfl | rfl) | ⟨f, _, rfl⟩) | (rfl | rfl)
      · simp [Env.localizeEvent] at hcall
      · simp only [Env.filesEvent, Call.GetDirectoryFiles.injEq] at hcall
        exact hcall.2.symm
      · simp [Env.subdirsEvent] at hcall
      · simp [Env.readEvent] at hcall
      · simp [OnnxBackendFactory.initEvent] at hcall
      · simp [OnnxBackendFactory.contextsEvent] at hcall
  · intro h6
    have hgsize : UnorderedMap.size (GraphDefBackendFactory.collected env p)
        = (dir.visibleFiles isHidden).length := by
      rw [graphdef_size_collected env p hfnd, hfiles.length_eq]
    have ht := graphdef_trace_of_init_ok env graphdef p cfg cc backend h1 h2 h6
    refine ⟨GraphDefBackendFactory.collected env p, ?_, ?_, hgsize, ?_, ?_⟩
    · rw [ht]
      rfl
    · intro n hn hk
      exact (hhidden n hn).2 ((graphdef_mem_keys_collected env p n).mp hk)
    · intro hv _ _
      rw [hgsize, hv]
    · intro e he path skip hcall
      rw [ht] at he
      simp only [List.mem_cons, List.mem_singleton, List.not_mem_nil, or_false] at he
      rcases he with rfl | rfl | rfl | rfl
      · simp [Env.localizeEvent] at hcall
      · simp only [Env.filesEvent, Call.GetDirectoryFiles.injEq] at hcall
        exact hcall.2.symm
      · simp [GraphDefBackendFactory.initEvent] at hcall
      · simp [GraphDefBackendFactory.contextsEvent] at hcall

/-- An instance of C3: three visible files, two hidden files and no subdirectory. -/
theorem C3_hidden_files_excluded_witness :
    (∃ models : OnnxModels,
      onnxModelsHanded ((⟨⟨0⟩⟩ : OnnxBackendFactory).CreateBackend threeVisibleTwoHidden.env
        "repo/model/1" sampleConfig 6.0 none).trace = [models] ∧
      ".lock" ∉ UnorderedMap.keys models ∧ ".cache" ∉ UnorderedMap.keys models ∧
      UnorderedMap.size models = 3) ∧
    (∃ models : GraphDefModels,
      graphdefModelsHanded ((⟨⟨0⟩⟩ : GraphDefBackendFactory).CreateBackend
        threeVisibleTwoHidden.env "repo/model/1" sampleConfig 6.0 none).trace = [models] ∧
      ".lock" ∉ UnorderedMap.keys models ∧ ".cache" ∉ UnorderedMap.keys models ∧
      UnorderedMap.size models = 3) := by
  have h := C3_hidden_files_excluded leadingDot threeVisibleTwoHidden threeVisibleTwoHidden.env
    ⟨⟨0⟩⟩ ⟨⟨0⟩⟩ "repo/model/1" sampleConfig 6.0 none (by decide) (by decide) (by decide)
    (List.Perm.refl _)
  obtain ⟨m, hm, hh, _, hs, _⟩ := h.1 (by decide) (List.Perm.refl _) (by decide) (by decide)
  obtain ⟨g, hg, hgh, _, hgs, _⟩ := h.2 (by decide)
  exact ⟨⟨m, hm, hh ".lock" (by decide), hh ".cache" (by decide),
      hs (by decide) (by decide) (by decide)⟩,
    ⟨g, hg, hgh ".lock" (by decide), hgh ".cache" (by decide),
      hgs (by decide) (by decide) (by decide)⟩⟩

/-! ## Fail-fast runs, factory creation and the GraphDef map -/

theorem CreateBackendResult.Sound.isFailFast {r : CreateBackendResult}
    {backend : Option InferenceBackend} {fresh : InferenceBackend}
    (h : r.Sound backend fresh) : r.IsFailFast backend fresh := by
  obtain ⟨hff, hfail, hok⟩ := h
  obtain ⟨hc1, hc2⟩ := hff.claim
  refine ⟨?_, hc2, ?_, ?_⟩
  · intro e he hbad
    obtain ⟨hs, hpre⟩ := hc1 e he hbad
    exact ⟨hs, hfail (by rw [hs]; exact hbad), hpre⟩
  · intro hs
    exact hok (by rw [hs]; rfl)
  · intro hne
    have hbad : r.status.IsOk = false := by
      cases hs : r.status.IsOk with
      | false => rfl
      | true => exact absurd (Status.eq_Success_of_IsOk hs) hne
    obtain ⟨pre, e, h1, h2, _⟩ := hff.2 hbad
    exact ⟨hfail hbad, e, by rw [h1]; simp, h2⟩

theorem onnx_localizeEvent_mem (env : Env) (self : OnnxBackendFactory) (p : String)
    (cfg : ModelConfig) (cc : Float) (backend : Option InferenceBackend) :
    env.localizeEvent p ∈ (self.CreateBackend env p cfg cc backend).trace := by
  simp only [OnnxBackendFactory.CreateBackend, Env.localizeEvent]
  repeat' split
  all_goals simp

theorem onnx_filesEvent_mem (env : Env) (self : OnnxBackendFactory) (p : String)
    (cfg : ModelConfig) (cc : Float) (backend : Option InferenceBackend)
    (h1 : (env.LocalizeDirectory p).1.IsOk = true) :
    env.filesEvent p ∈ (self.CreateBackend env p cfg cc backend).trace := by
  simp only [OnnxBackendFactory.CreateBackend, Env.filesEvent, Env.root, h1, Bool.not_true,
    Bool.false_eq_true, if_false]
  repeat' split
  all_goals simp

theorem onnx_subdirsEvent_mem (env : Env) (self : OnnxBackendFactory) (p : String)
    (cfg : ModelConfig) (cc : Float) (backend : Option InferenceBackend)
    (h1 : (env.LocalizeDirectory p).1.IsOk = true)
    (h2 : (env.GetDirectoryFiles (env.root p) true).1.IsOk = true) :
    env.subdirsEvent p ∈ (self.CreateBackend env p cfg cc backend).trace := by
  simp only [Env.root] at h2
  simp only [OnnxBackendFactory.CreateBackend, Env.subdirsEvent, Env.root, h1, h2, Bool.not_true,
    Bool.false_eq_true, if_false]
  repeat' split
  all_goals simp

theorem onnx_stepsInSequence (env : Env) (self : OnnxBackendFactory) (p : String)
    (cfg : ModelConfig) (cc : Float) (backend : Option InferenceBackend) :
    OnnxBackendFactory.StepsInSequence env p cfg cc
      (self.CreateBackend env p cfg cc backend).trace := by
  refine ⟨onnx_localizeEvent_mem env self p cfg cc backend, fun h1 =>
    ⟨onnx_filesEvent_mem env self p cfg cc backend h1, fun h2 =>
      ⟨onnx_subdirsEvent_mem env self p cfg cc backend h1 h2, fun h3 => ⟨?_, fun h4 => ?_⟩⟩⟩⟩
  · intro pre f post hfs hpre
    apply onnx_trace_contains_reads env self p cfg cc backend h1 h2 h3
    rw [hfs]
    exact readFiles_mem_of_ok_before env (env.root p) pre f post _ hpre
  · rw [onnx_reads_ok env self p cfg cc backend h1 h2 h3 h4]
    constructor
    · repeat' split
      all_goals simp
    · intro h5
      rw [h5]
      simp only [Bool.true_eq_false, if_false]
      split <;> simp

theorem graphdef_stepsInSequence (env : Env) (self : GraphDefBackendFactory) (p : String)
    (cfg : ModelConfig) (cc : Float) (backend : Option InferenceBackend) :
    self.StepsInSequence env p cfg cc (self.CreateBackend env p cfg cc backend).trace := by
  refine ⟨?_, fun h1 => ⟨?_, fun h2 => ?_⟩⟩
  · simp only [GraphDefBackendFactory.CreateBackend, Env.localizeEvent]
    repeat' split
    all_goals simp
  · simp only [GraphDefBackendFactory.CreateBackend, Env.filesEvent, Env.root, h1, Bool.not_true,
      Bool.false_eq_true, if_false]
    repeat' split
    all_goals simp
  · rw [graphdef_files_ok env self p cfg cc backend h1 h2]
    constructor
    · repeat' split
      all_goals simp
    · intro h5
      rw [h5]
      simp only [Bool.true_eq_false, if_false]
      split <;> simp

/-- C4. `CreateBackend` is fail-fast in both factories. The calls (localize, list files, list
subdirectories and read a file for ONNX, backend `Init`, `CreateExecutionContexts`) are made
in sequence, each as soon as the calls before it succeeded. A call that returns a status that
is not a success is the last call made, `CreateBackend` returns that status and leaves the
caller's handle as it was on entry; `CreateBackend` returns `Success` exactly when no call
failed, and the handle holds the new backend after a success and is unchanged otherwise. -/
theorem C4_create_backend_fail_fast (env : Env) (onnx : OnnxBackendFactory)
    (graphdef : GraphDefBackendFactory) (p : String) (cfg : ModelConfig) (cc : Float)
    (backend : Option InferenceBackend) :
    ((onnx.CreateBackend env p cfg cc backend).IsFailFast backend
        (InferenceBackend.onnx ⟨cc, some (p, cfg, env.kOnnxRuntimeOnnxPlatform),
          some (OnnxBackendFactory.collected env p)⟩) ∧
      OnnxBackendFactory.StepsInSequence env p cfg cc
        (onnx.CreateBackend env p cfg cc backend).trace) ∧
    ((graphdef.CreateBackend env p cfg cc backend).IsFailFast backend
        (InferenceBackend.graphdef
          ⟨cc, some (p, cfg, graphdef.backend_config_, env.kTensorFlowGraphDefPlatform),
            some (GraphDefBackendFactory.collected env p)⟩) ∧
      graphdef.StepsInSequence env p cfg cc
        (graphdef.CreateBackend env p cfg cc backend).trace) :=
  ⟨⟨(onnx_sound env onnx p cfg cc backend).isFailFast,
      onnx_stepsInSequence env onnx p cfg cc backend⟩,
    ⟨(graphdef_sound env graphdef p cfg cc backend).isFailFast,
      graphdef_stepsInSequence env graphdef p cfg cc backend⟩⟩

/-- Instances of C4: a read that fails, an `Init` that fails, and a run that succeeds. -/
theorem C4_create_backend_fail_fast_witness :
    (((⟨⟨0⟩⟩ : OnnxBackendFactory).CreateBackend overlappingUnreadable "repo/model/1"
        sampleConfig 6.0 none).status = Status.Error ErrorKind.IOError "read failure" ∧
      ((⟨⟨0⟩⟩ : OnnxBackendFactory).CreateBackend overlappingUnreadable "repo/model/1"
        sampleConfig 6.0 none).backend = none) ∧
    (((⟨⟨0⟩⟩ : GraphDefBackendFactory).CreateBackend scenarioBInitFails "repo/model/1"
        sampleConfig 6.0 none).status = Status.Error ErrorKind.ConfigError "unsupported" ∧
      ((⟨⟨0⟩⟩ : GraphDefBackendFactory).CreateBackend scenarioBInitFails "repo/model/1"
        sampleConfig 6.0 none).backend = none) ∧
    (∃ b, ((⟨⟨0⟩⟩ : OnnxBackendFactory).CreateBackend scenarioB.env "repo/model/1"
        sampleConfig 6.0 none).backend = some (InferenceBackend.onnx b)) := by
  have hA := C4_create_backend_fail_fast overlappingUnreadable ⟨⟨0⟩⟩ ⟨⟨0⟩⟩ "repo/model/1"
    sampleConfig 6.0 none
  have hB := C4_create_backend_fail_fast scenarioBInitFails ⟨⟨0⟩⟩ ⟨⟨0⟩⟩ "repo/model/1"
    sampleConfig 6.0 none
  have hC := C4_create_backend_fail_fast scenarioB.env ⟨⟨0⟩⟩ ⟨⟨0⟩⟩ "repo/model/1"
    sampleConfig 6.0 none
  refine ⟨?_, ?_, ⟨_, hC.1.1.2.2.1 (by decide)⟩⟩
  · have hread := (((hA.1.2.2 (by decide)).2 (by decide)).2 (by decide)).1 [] "x" ["y"]
      (by decide) (by decide)
    obtain ⟨hs, hb, _⟩ := hA.1.1.1 _ hread (by decide)
    exact ⟨hs, hb⟩
  · have hinit := ((hB.2.2.2 (by decide)).2 (by decide)).1
    obtain ⟨hs, hb, _⟩ := hB.2.1.1 _ hinit (by decide)
    exact ⟨hs, hb⟩

/-- C5. `OnnxBackendFactory::Create` returns a factory exactly when `OnnxLoader::Init`
succeeds: on an error of `Init`, `Create` returns that error and the caller's factory pointer
is as on entry; on a success, `Create` returns `Success` and the pointer owns a factory that
stores the given backend config. -/
theorem C5_create_iff_loader_init (loader_init : Status) (backend_config : BackendConfig)
    (factory : Option OnnxBackendFactory) :
    (loader_init.IsOk = false →
      (OnnxBackendFactory.Create loader_init backend_config factory).status = loader_init ∧
      (OnnxBackendFactory.Create loader_init backend_config factory).factory = factory) ∧
    (loader_init.IsOk = true →
      (OnnxBackendFactory.Create loader_init backend_config factory).status = Status.Success ∧
      ∃ f : OnnxBackendFactory,
        (OnnxBackendFactory.Create loader_init backend_config factory).factory = some f ∧
        f.backend_config_ = backend_config) ∧
    ((OnnxBackendFactory.Create loader_init backend_config factory).status = Status.Success
      ↔ loader_init.IsOk = true) := by
  cases loader_init with
  | Success =>
    refine ⟨fun h => by simp [Status.IsOk] at h, fun _ => ⟨rfl, ⟨backend_config⟩, rfl, rfl⟩, ?_⟩
    simp [OnnxBackendFactory.Create, Status.IsOk]
  | Error kind msg =>
    refine ⟨fun _ => ⟨rfl, rfl⟩, fun h => by simp [Status.IsOk] at h, ?_⟩
    simp [OnnxBackendFactory.Create, Status.IsOk]

/-- Instances of C5: scenario C, where `Init` fails, and a successful `Init`. -/
theorem C5_create_iff_loader_init_witness :
    ((OnnxBackendFactory.Create (Status.Error ErrorKind.RuntimeInitError "no runtime") ⟨64⟩
        none).status = Status.Error ErrorKind.RuntimeInitError "no runtime" ∧
      (OnnxBackendFactory.Create (Status.Error ErrorKind.RuntimeInitError "no runtime") ⟨64⟩
        none).factory = none) ∧
    ((OnnxBackendFactory.Create Status.Success ⟨64⟩ none).status = Status.Success ∧
      ∃ f : OnnxBackendFactory,
        (OnnxBackendFactory.Create Status.Success ⟨64⟩ none).factory = some f ∧
        f.backend_config_ = ⟨64⟩) :=
  ⟨(C5_create_iff_loader_init (Status.Error ErrorKind.RuntimeInitError "no runtime") ⟨64⟩
      none).1 (by decide),
    (C5_create_iff_loader_init Status.Success ⟨64⟩ none).2.1 (by decide)⟩

/-- C6 does not hold as stated. In scenario B the GraphDef factory hands over a map whose
entry for the file `graph.pb` is the local path of the file, not its contents, and which has
no entry for the subdirectory `weights`. -/
theorem C6_counterexample :
    "graph.pb" ∈ scenarioB.visibleFiles leadingDot ∧
    scenarioB.env.read "repo/model/1" "graph.pb" = (Status.Success, "GRAPHDEF") ∧
    "weights" ∈ scenarioB.subdirNames ∧
    graphdefModelsHanded ((⟨⟨0⟩⟩ : GraphDefBackendFactory).CreateBackend scenarioB.env
        "repo/model/1" sampleConfig 6.0 none).trace = [[("graph.pb", "/local/graph.pb")]] ∧
    UnorderedMap.find [("graph.pb", "/local/graph.pb")] "graph.pb" ≠ some "GRAPHDEF" ∧
    UnorderedMap.find [("graph.pb", "/local/graph.pb")] "weights" = none := by
  decide

/-- C6, amended. `GraphDefBackendFactory::CreateBackend`: when localization, the file listing
and `Init` succeed, the map handed to `CreateExecutionContexts` maps every listed file name
to the local path of the file, and its keys are the listed file names and no other; no run
reads a file or lists subdirectories. -/
theorem C6_graphdef_artifact_map (env : Env) (self : GraphDefBackendFactory) (p : String)
    (cfg : ModelConfig) (cc : Float) (backend : Option InferenceBackend) :
    ((env.LocalizeDirectory p).1.IsOk = true →
      (env.GetDirectoryFiles (env.root p) true).1.IsOk = true →
      (env.GraphDefBackend_Init ⟨cc, none, none⟩ p cfg self.backend_config_
        env.kTensorFlowGraphDefPlatform).IsOk = true →
      ∃ models : GraphDefModels,
        graphdefModelsHanded (self.CreateBackend env p cfg cc backend).trace = [models] ∧
        (∀ f ∈ env.files p, UnorderedMap.find models f = some (env.childPath p f)) ∧
        (∀ k, k ∈ UnorderedMap.keys models ↔ k ∈ env.files p)) ∧
    (∀ e ∈ (self.CreateBackend env p cfg cc backend).trace,
      e.call.isRead = false ∧ e.call.isSubdirs = false) := by
  constructor
  · intro h1 h2 h5
    have ht := graphdef_trace_of_init_ok env self p cfg cc backend h1 h2 h5
    exact ⟨GraphDefBackendFactory.collected env p, by rw [ht]; rfl,
      fun f hf => graphdef_find_collected env p f hf,
      fun k => graphdef_mem_keys_collected env p k⟩
  · intro e he
    cases h1 : (env.LocalizeDirectory p).1.IsOk with
    | false =>
      rw [graphdef_localize_fail env self p cfg cc backend h1] at he
      simp only [List.mem_singleton] at he
      subst he
      exact ⟨rfl, rfl⟩
    | true =>
      cases h2 : (env.GetDirectoryFiles (env.root p) true).1.IsOk with
      | false =>
        rw [graphdef_files_fail env self p cfg cc backend h1 h2] at he
        simp only [List.mem_cons, List.mem_singleton, List.not_mem_nil, or_false] at he
        rcases he with rfl | rfl <;> exact ⟨rfl, rfl⟩
      | true =>
        rw [graphdef_files_ok env self p cfg cc backend h1 h2] at he
        split at he
        · simp only [List.mem_cons, List.mem_singleton, List.not_mem_nil, or_false] at he
          rcases he with rfl | rfl | rfl <;> exact ⟨rfl, rfl⟩
        · split at he
          · simp only [List.mem_cons, List.mem_singleton, List.not_mem_nil, or_false] at he
            rcases he with rfl | rfl | rfl | rfl <;> exact ⟨rfl, rfl⟩
          · simp only [List.mem_cons, List.mem_singleton, List.not_mem_nil, or_false] at he
            rcases he with rfl | rfl | rfl | rfl <;> exact ⟨rfl, rfl⟩

/-- An instance of the amended C6: scenario B. -/
theorem C6_graphdef_artifact_map_witness :
    ∃ models : GraphDefModels,
      graphdefModelsHanded ((⟨⟨0⟩⟩ : GraphDefBackendFactory).CreateBackend scenarioB.env
        "repo/model/1" sampleConfig 6.0 none).trace = [models] ∧
      UnorderedMap.find models "graph.pb" = some "/local/graph.pb" ∧
      "weights" ∉ UnorderedMap.keys models := by
  obtain ⟨models, hm, hf, hk⟩ :=
    (C6_graphdef_artifact_map scenarioB.env ⟨⟨0⟩⟩ "repo/model/1" sampleConfig 6.0 none).1
      (by decide) (by decide) (by decide)
  exact ⟨models, hm, hf "graph.pb" (by decide),
    fun h => absurd ((hk "weights").mp h) (by decide)⟩

/-! ## Backend calls and the loader -/

/-- C7. In both factories, when the steps before the construction of the backend succeed,
the calls made after the filesystem calls are: one call of `Init` on a backend built with the
caller's `min_compute_capability`, with the path the caller passed (not the localized root),
the caller's model config and the platform constant; and, only when that `Init` succeeded,
one call of `CreateExecutionContexts` on that backend with the collected map as the last
call. -/
theorem C7_backend_calls (env : Env) (onnx : OnnxBackendFactory)
    (graphdef : GraphDefBackendFactory) (p : String) (cfg : ModelConfig) (cc : Float)
    (backend : Option InferenceBackend)
    (h1 : (env.LocalizeDirectory p).1.IsOk = true)
    (h2 : (env.GetDirectoryFiles (env.root p) true).1.IsOk = true) :
    ((env.GetDirectorySubdirs (env.root p)).1.IsOk = true →
      (∀ f ∈ env.files p, (env.read p f).1.IsOk = true) →
      ∃ pre : List Call, (∀ c ∈ pre, c.isFilesystem = true) ∧
        (onnx.CreateBackend env p cfg cc backend).trace.map Event.call
          = pre ++ Call.OnnxBackend_Init ⟨cc, none, none⟩ p cfg env.kOnnxRuntimeOnnxPlatform ::
              (if (env.OnnxBackend_Init ⟨cc, none, none⟩ p cfg
                    env.kOnnxRuntimeOnnxPlatform).IsOk = true then
                [Call.OnnxBackend_CreateExecutionContexts
                  ⟨cc, some (p, cfg, env.kOnnxRuntimeOnnxPlatform), none⟩
                  (OnnxBackendFactory.collected env p)]
              else [])) ∧
    (∃ pre : List Call, (∀ c ∈ pre, c.isFilesystem = true) ∧
      (graphdef.CreateBackend env p cfg cc backend).trace.map Event.call
        = pre ++ Call.GraphDefBackend_Init ⟨cc, none, none⟩ p cfg graphdef.backend_config_
              env.kTensorFlowGraphDefPlatform ::
            (if (env.GraphDefBackend_Init ⟨cc, none, none⟩ p cfg graphdef.backend_config_
                  env.kTensorFlowGraphDefPlatform).IsOk = true then
              [Call.GraphDefBackend_CreateExecutionContexts
                ⟨cc, some (p, cfg, graphdef.backend_config_, env.kTensorFlowGraphDefPlatform),
                  none⟩
                (GraphDefBackendFactory.collected env p)]
            else [])) := by
  constructor
  · intro h3 h4
    refine ⟨([env.localizeEvent p, env.filesEvent p, env.subdirsEvent p]
      ++ (env.files p).map (env.readEvent p)).map Event.call, ?_, ?_⟩
    · intro c hc
      simp only [List.map_append, List.map_cons, List.map_nil, List.map_map, List.mem_append,
        List.mem_cons, List.mem_singleton, List.not_mem_nil, or_false, List.mem_map] at hc
      rcases hc with (rfl | rfl | rfl) | ⟨f, _, rfl⟩ <;> rfl
    · rw [onnx_reads_ok env onnx p cfg cc backend h1 h2 h3 h4]
      cases h5 : (env.OnnxBackend_Init ⟨cc, none, none⟩ p cfg env.kOnnxRuntimeOnnxPlatform).IsOk with
      | false =>
        have h5' : (OnnxBackendFactory.initEvent env p cfg cc).status.IsOk = false := h5
        simp only [h5', if_true, Bool.false_eq_true, if_false, List.map_append, List.map_cons,
          List.map_nil]
        rfl
      | true =>
        have h5' : (OnnxBackendFactory.initEvent env p cfg cc).status.IsOk = true := h5
        simp only [h5', if_true, Bool.true_eq_false, if_false]
        split <;> simp [OnnxBackendFactory.initEvent, OnnxBackendFactory.contextsEvent]
  · refine ⟨[env.localizeEvent p, env.filesEvent p].map Event.call, ?_, ?_⟩
    · intro c hc
      simp only [List.map_cons, List.map_nil, List.mem_cons, List.mem_singleton,
        List.not_mem_nil, or_false] at hc
      rcases hc with rfl | rfl <;> rfl
    · rw [graphdef_files_ok env graphdef p cfg cc backend h1 h2]
      cases h5 : (env.GraphDefBackend_Init ⟨cc, none, none⟩ p cfg graphdef.backend_config_
          env.kTensorFlowGraphDefPlatform).IsOk with
      | false =>
        have h5' : (graphdef.initEvent env p cfg cc).status.IsOk = false := h5
        simp only [h5', if_true, Bool.false_eq_true, if_false, List.map_cons, List.map_nil]
        rfl
      | true =>
        have h5' : (graphdef.initEvent env p cfg cc).status.IsOk = true := h5
        simp only [h5', if_true, Bool.true_eq_false, if_false]
        split <;> simp [GraphDefBackendFactory.initEvent, GraphDefBackendFactory.contextsEvent]

/-- Instances of C7: the path handed to `Init` is the remote one, not `/local`. -/
theorem C7_backend_calls_witness :
    (∃ pre : List Call, (∀ c ∈ pre, c.isFilesystem = true) ∧
      ((⟨⟨0⟩⟩ : OnnxBackendFactory).CreateBackend scenarioB.env "s3://repo/model/1"
          sampleConfig 6.0 none).trace.map Event.call
        = pre ++ [Call.OnnxBackend_Init ⟨6.0, none, none⟩ "s3://repo/model/1" sampleConfig
              "onnxruntime_onnx",
            Call.OnnxBackend_CreateExecutionContexts
              ⟨6.0, some ("s3://repo/model/1", sampleConfig, "onnxruntime_onnx"), none⟩
              [("weights", (false, "/local/weights")), ("graph.pb", (true, "GRAPHDEF"))]]) ∧
    (∃ pre : List Call, (∀ c ∈ pre, c.isFilesystem = true) ∧
      ((⟨⟨64⟩⟩ : GraphDefBackendFactory).CreateBackend scenarioBInitFails "s3://repo/model/1"
          sampleConfig 6.0 none).trace.map Event.call
        = pre ++ [Call.GraphDefBackend_Init ⟨6.0, none, none⟩ "s3://repo/model/1" sampleConfig
              ⟨64⟩ "tensorflow_graphdef"]) :=
  ⟨(C7_backend_calls scenarioB.env ⟨⟨0⟩⟩ ⟨⟨64⟩⟩ "s3://repo/model/1" sampleConfig 6.0 none
      (by decide) (by decide)).1 (by decide) (by decide),
    (C7_backend_calls scenarioBInitFails ⟨⟨0⟩⟩ ⟨⟨64⟩⟩ "s3://repo/model/1" sampleConfig 6.0 none
      (by decide) (by decide)).2⟩

/-- C8 does not hold as stated. After two successful `Create` calls and the destruction of
one of the two factories, a factory is alive and the runtime is stopped; the same holds after
a successful `Create` followed by a `Create` whose `Init` fails. -/
theorem C8_counterexample :
    (Process.start.run [FactoryOp.create Status.Success ⟨64⟩,
        FactoryOp.create Status.Success ⟨64⟩, FactoryOp.destroy 1]).factories = [⟨⟨64⟩⟩] ∧
    (Process.start.run [FactoryOp.create Status.Success ⟨64⟩,
        FactoryOp.create Status.Success ⟨64⟩, FactoryOp.destroy 1]).runtime_up = false ∧
    (Process.start.run [FactoryOp.create Status.Success ⟨64⟩,
        FactoryOp.create (Status.Error ErrorKind.RuntimeInitError "already set up") ⟨64⟩]).factories
      = [⟨⟨64⟩⟩] ∧
    (Process.start.run [FactoryOp.create Status.Success ⟨64⟩,
        FactoryOp.create (Status.Error ErrorKind.RuntimeInitError "already set up") ⟨64⟩]).runtime_up
      = false := by
  decide

theorem Process.exclusive_invariant (ops : List FactoryOp) (p : Process)
    (hlen : p.factories.length ≤ 1) (hup : p.factories ≠ [] → p.runtime_up = true)
    (hex : p.exclusive ops = true) :
    (p.run ops).factories.length ≤ 1 ∧
      ((p.run ops).factories ≠ [] → (p.run ops).runtime_up = true) := by
  induction ops generalizing p with
  | nil => exact ⟨hlen, hup⟩
  | cons op ops ih =>
    have hrun : p.run (op :: ops) = (p.step op).run ops := rfl
    rw [hrun]
    cases op with
    | create loader_init backend_config =>
      simp only [Process.exclusive, Bool.and_eq_true, List.isEmpty_iff] at hex
      obtain ⟨hempty, hrest⟩ := hex
      apply ih _ _ _ hrest
      · cases hs : loader_init.IsOk <;>
          simp [Process.step, OnnxBackendFactory.Create, hs, hempty]
      · intro _
        cases hs : loader_init.IsOk with
        | false =>
          exfalso
          rename_i hne
          simp [Process.step, OnnxBackendFactory.Create, hs, hempty] at hne
        | true =>
          simp [Process.step, OnnxBackendFactory.Create, hs, OnnxBackendFactory.release,
            loaderStep]
    | destroy index =>
      simp only [Process.exclusive] at hex
      apply ih _ _ _ hex
      · simp only [Process.step]
        split
        · exact hlen
        · simp only
          exact le_trans (List.length_eraseIdx_le _ _) hlen
      · simp only [Process.step]
        split
        · exact hup
        · rename_i f hf
          intro hne
          exfalso
          apply hne
          match hfs : p.factories, hlen with
          | [], _ => simp [hfs] at hf
          | [g], _ =>
            cases index with
            | zero => simp
            | succ n => simp [hfs] at hf
          | _ :: _ :: _, hl => simp [hfs] at hl

/-- C8, amended. With the loader state set by an `Init` that succeeds and cleared by `Stop`:
for every sequence of `Create` calls and factory destructions in which `Create` is only
called while no factory is alive, the runtime is set up whenever a factory is alive. -/
theorem C8_runtime_up_while_single_factory (ops : List FactoryOp)
    (h : Process.start.exclusive ops = true) :
    (Process.start.run ops).factories ≠ [] → (Process.start.run ops).runtime_up = true :=
  (Process.exclusive_invariant ops Process.start (by decide) (by decide) h).2

/-- An instance of the amended C8: one factory at a time. -/
theorem C8_runtime_up_while_single_factory_witness :
    (Process.start.run [FactoryOp.create (Status.Error ErrorKind.RuntimeInitError "busy") ⟨64⟩,
        FactoryOp.create Status.Success ⟨64⟩, FactoryOp.destroy 0,
        FactoryOp.create Status.Success ⟨32⟩]).factories ≠ [] ∧
    (Process.start.run [FactoryOp.create (Status.Error ErrorKind.RuntimeInitError "busy") ⟨64⟩,
        FactoryOp.create Status.Success ⟨64⟩, FactoryOp.destroy 0,
        FactoryOp.create Status.Success ⟨32⟩]).runtime_up = true :=
  ⟨by decide, C8_runtime_up_while_single_factory _ (by decide) (by decide)⟩

/-- C9 does not hold as stated. When the caller's pointer already owns a factory, a
`Create` whose `Init` succeeds makes the loader calls `Init`, `Stop`: the move assignment
destroys the factory that the pointer owned. -/
theorem C9_counterexample :
    (OnnxBackendFactory.Create Status.Success ⟨64⟩ (some ⟨⟨32⟩⟩)).loader_calls
      = [LoaderCall.Init Status.Success, LoaderCall.Stop] ∧
    (OnnxBackendFactory.Create Status.Success ⟨64⟩ (some ⟨⟨32⟩⟩)).loader_calls
      ≠ [LoaderCall.Init Status.Success] := by
  decide

/-- C9, amended. In `OnnxBackendFactory::Create` the factory is built before
`OnnxLoader::Init` is called: when `Init` fails, the loader calls made by `Create` are `Init`
then `Stop`, the latter from the destructor of the local factory; when `Init` succeeds and
the caller's pointer is empty on entry, the only loader call is `Init`, and destroying the
returned factory calls `Stop`; when `Init` succeeds and the caller's pointer owns a factory
on entry, the calls are `Init` then `Stop`. -/
theorem C9_create_loader_calls (loader_init : Status) (backend_config : BackendConfig)
    (factory : Option OnnxBackendFactory) :
    (loader_init.IsOk = false →
      (OnnxBackendFactory.Create loader_init backend_config factory).loader_calls
        = [LoaderCall.Init loader_init, LoaderCall.Stop]) ∧
    (loader_init.IsOk = true → factory = none →
      (OnnxBackendFactory.Create loader_init backend_config factory).loader_calls
        = [LoaderCall.Init loader_init] ∧
      ∃ f, (OnnxBackendFactory.Create loader_init backend_config factory).factory = some f ∧
        f.destroy = [LoaderCall.Stop]) ∧
    (loader_init.IsOk = true → factory ≠ none →
      (OnnxBackendFactory.Create loader_init backend_config factory).loader_calls
        = [LoaderCall.Init loader_init, LoaderCall.Stop]) := by
  refine ⟨?_, ?_, ?_⟩
  · intro h
    simp [OnnxBackendFactory.Create, h, OnnxBackendFactory.destroy]
  · intro h hf
    subst hf
    simp [OnnxBackendFactory.Create, h, OnnxBackendFactory.release, OnnxBackendFactory.destroy]
  · intro h hf
    cases factory with
    | none => exact absurd rfl hf
    | some old =>
      simp [OnnxBackendFactory.Create, h, OnnxBackendFactory.release,
        OnnxBackendFactory.destroy]

/-- Instances of the amended C9 with an empty pointer on entry. -/
theorem C9_create_loader_calls_witness :
    (OnnxBackendFactory.Create (Status.Error ErrorKind.RuntimeInitError "no runtime") ⟨64⟩
        none).loader_calls
      = [LoaderCall.Init (Status.Error ErrorKind.RuntimeInitError "no runtime"),
          LoaderCall.Stop] ∧
    (OnnxBackendFactory.Create Status.Success ⟨64⟩ none).loader_calls
      = [LoaderCall.Init Status.Success] :=
  ⟨(C9_create_loader_calls (Status.Error ErrorKind.RuntimeInitError "no runtime") ⟨64⟩ none).1
      (by decide),
    ((C9_create_loader_calls Status.Success ⟨64⟩ none).2.1 (by decide) rfl).1⟩

end nvidia.inferenceserver
